import Mathlib

set_option maxHeartbeats 2000000
set_option maxRecDepth 8000
set_option linter.unreachableTactic false
set_option linter.unnecessarySeqFocus false
set_option linter.unusedTactic false
set_option linter.unusedVariables false

/-
Verification of the smart-card reading core of this repository
(`card_reader.py`, class `CardReader`).

The transport (`self.connection.transmit`) is modelled as a function
`T : Nat → TResp` giving the response to the k-th transmit call of the
session; `TResp.fault` stands for a channel-level exception raised by
`transmit`.  Machine bytes are `Nat` (a real reader only delivers values
below 256; theorems add that hypothesis where byte/hex-length reasoning
needs it).  Python floats produced by `x / 100` are modelled exactly as
rationals.  `datetime.strptime` is modelled faithfully to CPython's
`_strptime` implementation: the format is compiled to a regular
expression with ordered alternations (`%m` = `1[0-2]|0[1-9]|[1-9]`,
`%d` = `3[01]|[12]\d|0[1-9]|[1-9]`, `%H` = `2[0-3]|[0-1]\d|\d`,
`%M` = `[0-5]\d|\d`, `%S` = `6[0-1]|[0-5]\d|\d`, `%Y` = `\d\d\d\d`),
matched as a prefix with backtracking; a match that does not consume the
whole string raises (`unconverted data remains`), and the resulting
`datetime(...)` constructor additionally requires `year ≥ 1`,
`day ≤ days-in-month` and `second ≤ 59`.  (`\d` is restricted to ASCII
digits: every string the program feeds to `strptime` is produced by
`"%02X"`-rendering, hence ASCII.)  `%Y`/`%m`/`%d`-style `strftime`
output is modelled zero-padded.
-/

/- ### Characters, digits, hex -/

/-- Numeric value of an ASCII digit character (`ord(c) - 48`). -/
def dv (c : Char) : Nat := c.toNat - 48

/-- ASCII digit test (the `\d` character class of `_strptime`). -/
def isDig (c : Char) : Bool := 48 ≤ c.toNat && c.toNat ≤ 57

/-- Character equality against a fixed code point. -/
def chEq (n : Nat) (c : Char) : Bool := c.toNat == n

/-- Character range test by code points. -/
def chBetween (lo hi : Nat) (c : Char) : Bool := lo ≤ c.toNat && c.toNat ≤ hi

/-- Uppercase hex digit for a nibble. -/
def hexDigitCh (n : Nat) : Char := Char.ofNat (if n < 10 then 48 + n else 55 + n)

/-- Uppercase hex digits of `n`, no leading zeros, with explicit descent
fuel (`n + 1` steps always suffice, one per division by 16). -/
def toHexDigitsAux : Nat → Nat → List Char
  | 0, _ => []
  | fuel + 1, n =>
    if n < 16 then [hexDigitCh n]
    else toHexDigitsAux fuel (n / 16) ++ [hexDigitCh (n % 16)]

/-- Uppercase hex digits of `n`, no leading zeros (`"%X" % n`). -/
def toHexDigits (n : Nat) : List Char := toHexDigitsAux (n + 1) n

/-- Python `f"{n:02X}"`: uppercase hex, left-padded with `0` to width 2. -/
def hex02 (n : Nat) : List Char :=
  if n < 16 then ['0', hexDigitCh n] else toHexDigits n

/-- Value of a hex digit character, `none` for anything else. -/
def hexVal (c : Char) : Option Nat :=
  if 48 ≤ c.toNat ∧ c.toNat ≤ 57 then some (c.toNat - 48)
  else if 65 ≤ c.toNat ∧ c.toNat ≤ 70 then some (c.toNat - 55)
  else if 97 ≤ c.toNat ∧ c.toNat ≤ 102 then some (c.toNat - 87)
  else none

/-- ASCII whitespace skipped by `bytes.fromhex` (`Py_ISSPACE`). -/
def isPySpace (c : Char) : Bool :=
  c.toNat == 32 || c.toNat == 9 || c.toNat == 10 ||
  c.toNat == 11 || c.toNat == 12 || c.toNat == 13

/-- Python `bytes.fromhex`: ASCII whitespace may separate byte pairs, each
byte is two consecutive hex digits; anything else raises (`none`). -/
def pyFromHex : List Char → Option (List Nat)
  | [] => some []
  | [c] => if isPySpace c then some [] else none
  | c :: c2 :: rest =>
    if isPySpace c then pyFromHex (c2 :: rest)
    else match hexVal c, hexVal c2 with
      | some hi, some lo => (pyFromHex rest).map (fun bs => (16 * hi + lo) :: bs)
      | _, _ => none

/-- `smartcard.util.toHexString`: uppercase hex byte pairs joined by spaces. -/
def toHexString (data : List Nat) : String :=
  String.intercalate " " (data.map (fun b => String.mk (hex02 b)))

/-- `smartcard.util.toBytes`: parse a hex string into a byte list, raising
(`none`) on malformed input. -/
def toBytes (s : String) : Option (List Nat) := pyFromHex s.data

/-- Python `int.from_bytes(bs, "big")`. -/
def intFromBytesBE (bs : List Nat) : Nat := bs.foldl (fun a b => 256 * a + b) 0

/- ### The `_strptime` regex model -/

/-- Digit match of `\d` followed by `int(...)` of the matched character. -/
def digitVal (c : Char) : Option Nat := if isDig c then some (dv c) else none

/-- Integer value of a matched two-digit alternative (`int` of the text). -/
def val2 (c1 c2 : Char) : Nat := 10 * dv c1 + dv c2

/-- A two-character regex alternative: first char satisfies `p`, second
satisfies `q`; yields the value and the rest of the input. -/
def alt2 (p q : Char → Bool) (f : Char → Char → Nat) : List Char → List (Nat × List Char)
  | c1 :: c2 :: r => if p c1 && q c2 then [(f c1 c2, r)] else []
  | _ => []

/-- A one-character regex alternative. -/
def alt1 (p : Char → Bool) (f : Char → Nat) : List Char → List (Nat × List Char)
  | c :: r => if p c then [(f c, r)] else []
  | _ => []

/-- `%m` pattern `1[0-2]|0[1-9]|[1-9]`, alternatives in regex order. -/
def altsMon (l : List Char) : List (Nat × List Char) :=
  alt2 (chEq 49) (chBetween 48 50) val2 l ++
  alt2 (chEq 48) (chBetween 49 57) val2 l ++
  alt1 (chBetween 49 57) dv l

/-- `%d` pattern `3[01]|[12]\d|0[1-9]|[1-9]`. -/
def altsDay (l : List Char) : List (Nat × List Char) :=
  alt2 (chEq 51) (chBetween 48 49) val2 l ++
  alt2 (chBetween 49 50) isDig val2 l ++
  alt2 (chEq 48) (chBetween 49 57) val2 l ++
  alt1 (chBetween 49 57) dv l

/-- `%H` pattern `2[0-3]|[0-1]\d|\d`. -/
def altsHour (l : List Char) : List (Nat × List Char) :=
  alt2 (chEq 50) (chBetween 48 51) val2 l ++
  alt2 (chBetween 48 49) isDig val2 l ++
  alt1 isDig dv l

/-- `%M` pattern `[0-5]\d|\d`. -/
def altsMin (l : List Char) : List (Nat × List Char) :=
  alt2 (chBetween 48 53) isDig val2 l ++
  alt1 isDig dv l

/-- `%S` pattern `6[0-1]|[0-5]\d|\d`. -/
def altsSec (l : List Char) : List (Nat × List Char) :=
  alt2 (chEq 54) (chBetween 48 49) val2 l ++
  alt2 (chBetween 48 53) isDig val2 l ++
  alt1 isDig dv l

/-- `%Y` pattern `\d\d\d\d`. -/
def year4 : List Char → Option (Nat × List Char)
  | c1 :: c2 :: c3 :: c4 :: r =>
    match digitVal c1, digitVal c2, digitVal c3, digitVal c4 with
    | some a, some b, some c, some d => some (1000 * a + 100 * b + 10 * c + d, r)
    | _, _, _, _ => none
  | _ => none

/-- Backtracking match of `%m%d` after the year: the first month
alternative under which some day alternative matches wins. -/
def matchMD (l : List Char) : Option ((Nat × Nat) × List Char) :=
  (altsMon l).findSome? fun mm =>
    (altsDay mm.2).findSome? fun dd => some ((mm.1, dd.1), dd.2)

/-- Backtracking match of the whole `%Y%m%d` pattern as a prefix. -/
def matchYmd (l : List Char) : Option ((Nat × Nat × Nat) × List Char) :=
  match year4 l with
  | none => none
  | some (y, r) => (matchMD r).map (fun p => ((y, p.1.1, p.1.2), p.2))

/-- Backtracking match of `%m%d%H%M%S` after the year. -/
def matchMDHMS (l : List Char) : Option ((Nat × Nat × Nat × Nat × Nat) × List Char) :=
  (altsMon l).findSome? fun mm =>
    (altsDay mm.2).findSome? fun dd =>
      (altsHour dd.2).findSome? fun hh =>
        (altsMin hh.2).findSome? fun mi =>
          (altsSec mi.2).findSome? fun ss =>
            some ((mm.1, dd.1, hh.1, mi.1, ss.1), ss.2)

/-- Backtracking match of the whole `%Y%m%d%H%M%S` pattern as a prefix. -/
def matchYmdHMS (l : List Char) : Option ((Nat × Nat × Nat × Nat × Nat × Nat) × List Char) :=
  match year4 l with
  | none => none
  | some (y, r) =>
    (matchMDHMS r).map (fun p => ((y, p.1.1, p.1.2.1, p.1.2.2.1, p.1.2.2.2.1, p.1.2.2.2.2), p.2))

/-- Gregorian leap-year rule used by `datetime`. -/
def isLeap (y : Nat) : Bool := (y % 4 == 0 && y % 100 != 0) || y % 400 == 0

/-- Length of a month as validated by the `datetime` constructor. -/
def daysInMonth (y m : Nat) : Nat :=
  if m = 2 then (if isLeap y then 29 else 28)
  else if m = 4 ∨ m = 6 ∨ m = 9 ∨ m = 11 then 30 else 31

/-- `datetime.strptime(s, "%Y%m%d")`: the prefix match must consume the
whole string, and `datetime(y, m, d)` must accept the values. -/
def strptimeYmd (l : List Char) : Option (Nat × Nat × Nat) :=
  match matchYmd l with
  | some ((y, m, d), []) =>
    if 1 ≤ y ∧ d ≤ daysInMonth y m then some (y, m, d) else none
  | _ => none

/-- `datetime.strptime(s, "%Y%m%d%H%M%S")`; the constructor also rejects
the leap seconds 60/61 admitted by the `%S` pattern. -/
def strptimeYmdHMS (l : List Char) : Option (Nat × Nat × Nat × Nat × Nat × Nat) :=
  match matchYmdHMS l with
  | some ((y, m, d, h, mi, ss), []) =>
    if 1 ≤ y ∧ d ≤ daysInMonth y m ∧ ss ≤ 59 then some (y, m, d, h, mi, ss) else none
  | _ => none

/- ### Formatting helpers -/

/-- `%02d`-style two-digit rendering (all values used are below 100). -/
def pad2 (n : Nat) : List Char := [Nat.digitChar (n / 10 % 10), Nat.digitChar (n % 10)]

/-- Four-digit zero-padded year rendering. -/
def pad4 (n : Nat) : List Char :=
  [Nat.digitChar (n / 1000 % 10), Nat.digitChar (n / 100 % 10),
   Nat.digitChar (n / 10 % 10), Nat.digitChar (n % 10)]

/-- `strftime("%Y-%m-%d %H:%M:%S")`. -/
def fmtDashed (y m d h mi ss : Nat) : String :=
  String.mk (pad4 y ++ '-' :: pad2 m ++ '-' :: pad2 d ++ ' ' :: pad2 h ++
    ':' :: pad2 mi ++ ':' :: pad2 ss)

/-- `strftime("%Y/%m/%d")`. -/
def fmtSlash (y m d : Nat) : String :=
  String.mk (pad4 y ++ '/' :: pad2 m ++ '/' :: pad2 d)

/-- `f"{x:.2f}"` for the exact values `n / 100` produced by the reader. -/
def fmt2f (q : ℚ) : String :=
  let c : Nat := (q * 100).num.toNat
  toString (c / 100) ++ "." ++ String.mk (pad2 (c % 100))

/-- Python rendering of an `Optional[str]` inside an f-string. -/
def optStr : Option String → String
  | some a => a
  | none => "None"

/- ### Transport and reader state -/

/-- Outcome of one `connection.transmit` call: a response (data bytes plus
the two status bytes) or a raised channel-level exception. -/
inductive TResp where
  | ok (data : List Nat) (sw1 sw2 : Nat)
  | fault
deriving DecidableEq

/-- The mutable context of a `CardReader`: how many transmit calls were
made, the ordered (command, response) trace, and `self.selected_aid`. -/
structure RState where
  idx : Nat
  trace : List (List Nat × TResp)
  selected_aid : Option String
deriving DecidableEq

/-- Record one exchange in the state. -/
def pushT (s : RState) (apdu : List Nat) (r : TResp) : RState :=
  ⟨s.idx + 1, s.trace ++ [(apdu, r)], s.selected_aid⟩

/-- `CardReader.transmit_apdu`: forwards to the transport; a raised fault
is re-raised to the caller (callers handle `TResp.fault`). -/
def transmit_apdu (T : Nat → TResp) (s : RState) (apdu : List Nat) : TResp × RState :=
  (T s.idx, pushT s apdu (T s.idx))

/-- The select-application command for an identifier payload. -/
def selApdu (ab : List Nat) : List Nat := [0x00, 0xA4, 0x04, 0x00, ab.length] ++ ab

/-- The read-record command for location `sfi`, slot `rn`
(`[0x00, 0xB2, record_num, (sfi << 3) | 0x04, 0x00]`). -/
def recApdu (sfi rn : Nat) : List Nat := [0x00, 0xB2, rn, sfi <<< 3 ||| 0x04, 0x00]

/-- The stored-value query command. -/
def balApdu : List Nat := [0x80, 0x5C, 0x00, 0x02, 0x04]

/-- The identity-record read command. -/
def idApdu : List Nat := [0x00, 0xB0, 0x95, 0x00, 0x00]

/-- `CardReader.SUPPORTED_AIDS`. -/
def SUPPORTED_AIDS : List (String × String) :=
  [("A000000632010105", "主要AID"), ("A000000632010106", "备选AID")]

/-- `CardReader.TRANSACTION_TYPES` (insertion order of the dict). -/
def TRANSACTION_TYPES : List (Nat × String) :=
  [(0x09, "地铁"), (0x02, "充值"), (0x06, "公交"), (0x05, "消费")]

/- ### Decoded records and the aggregate result -/

/-- One decoded ledger record (`parse_transaction_record`'s dict). -/
structure TxRecord where
  amount : ℚ
  datetime : String
  transport_type : String
  station_gate_info : String
  raw : String
deriving DecidableEq

/-- The decoded identity record (`read_card_number`'s dict). -/
structure IdentityRecord where
  card_number : String
  start_date : String
  valid_date : String
deriving DecidableEq

/-- `read_card_info`'s result dict; the `card_info` key is only ever added
when an identity record was decoded, modelled as an `Option`. -/
structure CardResult where
  success : Bool
  message : String
  balance : Option ℚ
  transactions : List TxRecord
  card_info : Option IdentityRecord
  logs : List String
deriving DecidableEq

/- ### CardReader operations -/

/-- `CardReader.parse_transaction_record`: strip spaces, decode hex
(`bytes.fromhex` failure is caught and yields `None`), reject fewer than
23 bytes, then decode the fixed-offset fields; an invalid 14-digit
timestamp degrades to the sentinel string. -/
def parse_transaction_record (record_hex : String) : Option TxRecord :=
  match pyFromHex (record_hex.data.filter (fun c => c != ' ')) with
  | none => none
  | some data =>
    if data.length < 23 then none
    else
      let amount : ℚ := (intFromBytesBE ((data.drop 5).take 4) : ℚ) / 100
      let date_str := ((data.drop 16).take 4).flatMap hex02
      let time_str := ((data.drop 20).take 3).flatMap hex02
      let datetime_str :=
        match strptimeYmdHMS (date_str ++ time_str) with
        | some (y, m, d, h, mi, ss) => fmtDashed y m d h mi ss
        | none => "未知日期时间"
      let code := data.getD 9 0
      let trans_type :=
        match TRANSACTION_TYPES.lookup code with
        | some t => t
        | none => "未知(" ++ String.mk (hex02 code) ++ ")"
      some { amount := amount, datetime := datetime_str, transport_type := trans_type,
             station_gate_info := String.mk (((data.drop 10).take 6).flatMap hex02),
             raw := record_hex }

/-- `CardReader.read_card_number`: read the identity record, require
status `9000` and non-empty data, slice the uppercase hex rendering, and
parse both date substrings; any failure (including `strptime` raising) is
caught and yields `None`. -/
def read_card_number (T : Nat → TResp) (s : RState) : Option IdentityRecord × RState :=
  match transmit_apdu T s idApdu with
  | (TResp.fault, s1) => (none, s1)
  | (TResp.ok data sw1 sw2, s1) =>
    if ¬(sw1 = 0x90 ∧ sw2 = 0x00) ∨ data = [] then (none, s1)
    else
      let full := data.flatMap hex02
      let card_number := (full.drop 20).take 20
      let start_raw := (full.drop 40).take 8
      let valid_raw := (full.drop 48).take 8
      match strptimeYmd start_raw, strptimeYmd valid_raw with
      | some (y1, m1, d1), some (y2, m2, d2) =>
        (some { card_number := String.mk card_number,
                start_date := fmtSlash y1 m1 d1,
                valid_date := fmtSlash y2 m2 d2 }, s1)
      | _, _ => (none, s1)

/-- `CardReader.read_balance`: status must be `9000` and at least 4 data
bytes; `int.from_bytes` additionally rejects non-byte values; the result
is the big-endian value over 100. -/
def read_balance (T : Nat → TResp) (s : RState) : Option ℚ × RState :=
  match transmit_apdu T s balApdu with
  | (TResp.fault, s1) => (none, s1)
  | (TResp.ok data sw1 sw2, s1) =>
    if sw1 = 0x90 ∧ sw2 = 0x00 then
      if data.length < 4 then (none, s1)
      else if (data.take 4).all (fun b => b < 256) then
        (some ((intFromBytesBE (data.take 4) : ℚ) / 100), s1)
      else (none, s1)
    else (none, s1)

/-- Loop body of `CardReader.select_application` over the remaining
profiles: a transport fault (or a `toBytes` failure) is caught and
selection continues with the next profile. -/
def select_go (T : Nat → TResp) : List (String × String) → RState → Bool × RState
  | [], s => (false, s)
  | (aid_hex, aid_name) :: rest, s =>
    match toBytes aid_hex with
    | none => select_go T rest s
    | some ab =>
      match transmit_apdu T s (selApdu ab) with
      | (TResp.fault, s1) => select_go T rest s1
      | (TResp.ok _ sw1 sw2, s1) =>
        if sw1 = 0x90 ∧ sw2 = 0x00 then (true, ⟨s1.idx, s1.trace, some aid_name⟩)
        else select_go T rest s1

/-- `CardReader.select_application`. -/
def select_application (T : Nat → TResp) (s : RState) : Bool × RState :=
  select_go T SUPPORTED_AIDS s

/-- The slot-loop continue condition of `read_transactions`, literally
`sw1 == 0x90 and sw2 == 0x00 and data and any(data)`. -/
def slotOk (data : List Nat) (sw1 sw2 : Nat) : Prop :=
  sw1 = 0x90 ∧ sw2 = 0x00 ∧ data ≠ [] ∧ data.any (fun b => b != 0)

instance (data : List Nat) (sw1 sw2 : Nat) : Decidable (slotOk data sw1 sw2) := by
  unfold slotOk
  infer_instance

/-- Slot loop of `CardReader.read_transactions` at one location: stop on a
transport fault, a non-`9000` status, empty data or all-zero data; a
record the parser rejects is skipped without stopping. -/
def readSlots (T : Nat → TResp) (sfi : Nat) : List Nat → RState → List TxRecord × RState
  | [], s => ([], s)
  | rn :: rest, s =>
    match transmit_apdu T s (recApdu sfi rn) with
    | (TResp.fault, s1) => ([], s1)
    | (TResp.ok data sw1 sw2, s1) =>
      if slotOk data sw1 sw2 then
        match parse_transaction_record (toHexString data) with
        | some tx =>
          let q := readSlots T sfi rest s1
          (tx :: q.1, q.2)
        | none => readSlots T sfi rest s1
      else ([], s1)

/-- Location loop of `CardReader.read_transactions`: the first location
whose slot loop decoded at least one record ends the search. -/
def readLocations (T : Nat → TResp) (max_records : Nat) : List Nat → RState → List TxRecord × RState
  | [], s => ([], s)
  | sfi :: rest, s =>
    let q := readSlots T sfi (List.range' 1 max_records) s
    if q.1 = [] then readLocations T max_records rest q.2 else q

/-- `CardReader.read_transactions` (defaults: locations
`[24, 21, 18, 15, 3, 2]`, 10 slots), with the final stable sort by the
`datetime` string, newest first. -/
def read_transactions (T : Nat → TResp) (possible_sfis : Option (List Nat))
    (max_records : Nat) (s : RState) : List TxRecord × RState :=
  let sfis := possible_sfis.getD [24, 21, 18, 15, 3, 2]
  let q := readLocations T max_records sfis s
  (q.1.mergeSort (fun a b => decide (b.datetime ≤ a.datetime)), q.2)

/-- `CardReader.read_card_info`: select the application (failure is
terminal), read balance and ledger (failures logged, not aborting), then
unconditionally re-read the balance and — only if that succeeds — read
the identity record.  Every callee catches its own exceptions, so the
orchestrator's `except` branch is unreachable and the function is total. -/
def read_card_info (T : Nat → TResp) (s : RState) : CardResult × RState :=
  match select_application T s with
  | (false, s1) =>
    ({ success := false, message := "无法识别卡片类型", balance := none,
       transactions := [], card_info := none, logs := [] }, s1)
  | (true, s1) =>
    let logs0 := ["卡片识别成功 (" ++ optStr s1.selected_aid ++ ")"]
    let (bal, s2) := read_balance T s1
    let logs1 := logs0 ++ [match bal with
      | some b => "余额: " ++ fmt2f b ++ " 元"
      | none => "余额读取失败"]
    let (txs, s3) := read_transactions T none 10 s2
    let logs2 := logs1 ++ [if txs.isEmpty then "未读取到交易记录"
      else "成功读取 " ++ toString txs.length ++ " 条交易记录"]
    let (bal2, s4) := read_balance T s3
    match bal2 with
    | none =>
      ({ success := true, message := "读取成功", balance := bal, transactions := txs,
         card_info := none, logs := logs2 }, s4)
    | some b2 =>
      let logs3 := logs2 ++ ["余额: " ++ fmt2f b2 ++ " 元"]
      match read_card_number T s4 with
      | (some info, s5) =>
        ({ success := true, message := "读取成功", balance := some b2, transactions := txs,
           card_info := some info,
           logs := logs3 ++ ["卡号: " ++ info.card_number, "开卡日期: " ++ info.start_date,
                             "有效期至: " ++ info.valid_date] }, s5)
      | (none, s5) =>
        ({ success := true, message := "读取成功", balance := some b2, transactions := txs,
           card_info := none, logs := logs3 ++ ["卡号读取失败"] }, s5)

/- ### Observation functions on single responses (specification side) -/

/-- Whether a response carries the success status word `9000`. -/
def okSW : TResp → Bool
  | TResp.ok _ sw1 sw2 => sw1 == 0x90 && sw2 == 0x00
  | TResp.fault => false

/-- The continue condition of the slot loop: success status, non-empty
data, not all zero bytes (a fault never continues). -/
def contOkB : TResp → Bool
  | TResp.ok data sw1 sw2 => decide (slotOk data sw1 sw2)
  | TResp.fault => false

/-- Whether a slot response contributed a decoded ledger record. -/
def decodesB : TResp → Bool
  | TResp.ok data sw1 sw2 =>
    contOkB (TResp.ok data sw1 sw2) &&
      (parse_transaction_record (toHexString data)).isSome
  | TResp.fault => false

/-- What `read_balance` decodes out of a given response. -/
def decodeBal : TResp → Option ℚ
  | TResp.fault => none
  | TResp.ok data sw1 sw2 =>
    if sw1 = 0x90 ∧ sw2 = 0x00 then
      if data.length < 4 then none
      else if (data.take 4).all (fun b => b < 256) then
        some ((intFromBytesBE (data.take 4) : ℚ) / 100)
      else none
    else none

/-- What `read_card_number` decodes out of a given response. -/
def decodeId : TResp → Option IdentityRecord
  | TResp.fault => none
  | TResp.ok data sw1 sw2 =>
    if ¬(sw1 = 0x90 ∧ sw2 = 0x00) ∨ data = [] then none
    else
      let full := data.flatMap hex02
      match strptimeYmd ((full.drop 40).take 8), strptimeYmd ((full.drop 48).take 8) with
      | some (y1, m1, d1), some (y2, m2, d2) =>
        some { card_number := String.mk ((full.drop 20).take 20),
               start_date := fmtSlash y1 m1 d1, valid_date := fmtSlash y2 m2 d2 }
      | _, _ => none

/- ### Trace/result shape of the ledger loops as pure functions -/

/-- The records the slot loop collects, as a function of the transmit
counter at which it starts. -/
def slotsTxs (T : Nat → TResp) (sfi : Nat) : List Nat → Nat → List TxRecord
  | [], _ => []
  | _rn :: rest, i =>
    match T i with
    | TResp.fault => []
    | TResp.ok data sw1 sw2 =>
      if slotOk data sw1 sw2 then
        match parse_transaction_record (toHexString data) with
        | some tx => tx :: slotsTxs T sfi rest (i + 1)
        | none => slotsTxs T sfi rest (i + 1)
      else []

/-- The (command, response) exchanges the slot loop appends to the trace. -/
def slotsDelta (T : Nat → TResp) (sfi : Nat) : List Nat → Nat → List (List Nat × TResp)
  | [], _ => []
  | rn :: rest, i =>
    (recApdu sfi rn, T i) :: (if contOkB (T i) then slotsDelta T sfi rest (i + 1) else [])

/-- The records the location loop returns. -/
def locsTxs (T : Nat → TResp) (max_records : Nat) : List Nat → Nat → List TxRecord
  | [], _ => []
  | sfi :: rest, i =>
    let txs := slotsTxs T sfi (List.range' 1 max_records) i
    if txs = [] then
      locsTxs T max_records rest (i + (slotsDelta T sfi (List.range' 1 max_records) i).length)
    else txs

/-- The exchanges the location loop appends to the trace. -/
def locsDelta (T : Nat → TResp) (max_records : Nat) : List Nat → Nat → List (List Nat × TResp)
  | [], _ => []
  | sfi :: rest, i =>
    let d := slotsDelta T sfi (List.range' 1 max_records) i
    d ++ (if slotsTxs T sfi (List.range' 1 max_records) i = [] then
      locsDelta T max_records rest (i + d.length) else [])

/- ### Specification-side date validity (worded from the spec) -/

/-- Value of four digit characters at position `i`. -/
def fourAt (l : List Char) (i : Nat) : Nat :=
  1000 * dv (l.getD i '0') + 100 * dv (l.getD (i + 1) '0') +
    10 * dv (l.getD (i + 2) '0') + dv (l.getD (i + 3) '0')

/-- Value of two digit characters at position `i`. -/
def twoAt (l : List Char) (i : Nat) : Nat :=
  10 * dv (l.getD i '0') + dv (l.getD (i + 1) '0')

/-- Calendar validity of a year/month/day triple. -/
def validYMD (y m d : Nat) : Bool :=
  decide (1 ≤ y ∧ 1 ≤ m ∧ m ≤ 12 ∧ 1 ≤ d ∧ d ≤ daysInMonth y m)

/-- Spec wording: an 8-character digit string that is a valid `YYYYMMDD`
calendar date. -/
def specValidDate8 (l : List Char) : Bool :=
  (l.length == 8) && l.all isDig && validYMD (fourAt l 0) (twoAt l 4) (twoAt l 6)

/-- Spec wording: 14 digit characters forming a valid `YYYYMMDDHHMMSS`
calendar date/time. -/
def specValidDateTime14 (l : List Char) : Bool :=
  (l.length == 14) && l.all isDig && validYMD (fourAt l 0) (twoAt l 4) (twoAt l 6) &&
    (twoAt l 8 ≤ 23 : Bool) && (twoAt l 10 ≤ 59 : Bool) && (twoAt l 12 ≤ 59 : Bool)

/-- The timestamp field the spec prescribes for a 23+-byte record. -/
def specTimestamp (data : List Nat) : String :=
  let digits := ((data.drop 16).take 7).flatMap hex02
  if specValidDateTime14 digits then
    fmtDashed (fourAt digits 0) (twoAt digits 4) (twoAt digits 6)
      (twoAt digits 8) (twoAt digits 10) (twoAt digits 12)
  else "未知日期时间"

/- ### Arithmetic of the read-record parameter byte -/

lemma shiftLor (k : Nat) : k <<< 3 ||| 4 = 8 * k + 4 := by
  have h0 : k <<< 3 = 8 * k := by rw [Nat.shiftLeft_eq]; ring
  have h1 : (8 * k) = Nat.bit false (Nat.bit false (Nat.bit false k)) := by
    simp [Nat.bit]; ring
  have h2 : (4 : Nat) = Nat.bit false (Nat.bit false (Nat.bit true 0)) := by
    simp [Nat.bit]
  rw [h0, h1, h2, Nat.lor_bit, Nat.lor_bit, Nat.lor_bit]
  simp [Nat.bit]
  ring

lemma recApdu_inj {k rn k2 rn2 : Nat} (h : recApdu k rn = recApdu k2 rn2) :
    k = k2 ∧ rn = rn2 := by
  simp only [recApdu, shiftLor, List.cons.injEq] at h
  omega

lemma recApdu_ne_bal (k rn : Nat) : recApdu k rn ≠ balApdu := by
  simp [recApdu, balApdu]

lemma recApdu_ne_id (k rn : Nat) : recApdu k rn ≠ idApdu := by
  simp [recApdu, idApdu]

lemma recApdu_ne_sel (k rn : Nat) (ab : List Nat) : recApdu k rn ≠ selApdu ab := by
  simp [recApdu, selApdu]

/- ### Stage characterization lemmas -/

lemma read_balance_eq (T : Nat → TResp) (s : RState) :
    read_balance T s = (decodeBal (T s.idx), pushT s balApdu (T s.idx)) := by
  cases hT : T s.idx with
  | fault => simp [read_balance, transmit_apdu, decodeBal, hT]
  | ok data sw1 sw2 =>
    simp only [read_balance, transmit_apdu, decodeBal, hT]
    split_ifs <;> rfl

lemma read_card_number_eq (T : Nat → TResp) (s : RState) :
    read_card_number T s = (decodeId (T s.idx), pushT s idApdu (T s.idx)) := by
  cases hT : T s.idx with
  | fault => simp [read_card_number, transmit_apdu, decodeId, hT]
  | ok data sw1 sw2 =>
    simp only [read_card_number, transmit_apdu, decodeId, hT]
    split_ifs with h
    · rfl
    · rcases hA : strptimeYmd ((data.flatMap hex02).drop 40 |>.take 8) with _ | ⟨y1, m1, d1⟩ <;>
        rcases hB : strptimeYmd ((data.flatMap hex02).drop 48 |>.take 8) with _ | ⟨y2, m2, d2⟩ <;>
        simp [hA, hB]

/-- The two select commands actually issued. -/
def selApdu0 : List Nat :=
  [0x00, 0xA4, 0x04, 0x00, 0x08, 0xA0, 0x00, 0x00, 0x06, 0x32, 0x01, 0x01, 0x05]

def selApdu1 : List Nat :=
  [0x00, 0xA4, 0x04, 0x00, 0x08, 0xA0, 0x00, 0x00, 0x06, 0x32, 0x01, 0x01, 0x06]

lemma select_application_eq (T : Nat → TResp) (s : RState) :
    select_application T s =
      (if okSW (T s.idx) then
        (true, ⟨s.idx + 1, s.trace ++ [(selApdu0, T s.idx)], some "主要AID"⟩)
      else if okSW (T (s.idx + 1)) then
        (true, ⟨s.idx + 2, s.trace ++ [(selApdu0, T s.idx), (selApdu1, T (s.idx + 1))],
          some "备选AID"⟩)
      else
        (false, ⟨s.idx + 2, s.trace ++ [(selApdu0, T s.idx), (selApdu1, T (s.idx + 1))],
          s.selected_aid⟩)) := by
  have h0 : toBytes "A000000632010105" = some [0xA0, 0x00, 0x00, 0x06, 0x32, 0x01, 0x01, 0x05] := by
    decide
  have h1 : toBytes "A000000632010106" = some [0xA0, 0x00, 0x00, 0x06, 0x32, 0x01, 0x01, 0x06] := by
    decide
  have e0 : selApdu [0xA0, 0x00, 0x00, 0x06, 0x32, 0x01, 0x01, 0x05] = selApdu0 := by decide
  have e1 : selApdu [0xA0, 0x00, 0x00, 0x06, 0x32, 0x01, 0x01, 0x06] = selApdu1 := by decide
  cases hT : T s.idx with
  | fault =>
    cases hT2 : T (s.idx + 1) with
    | fault =>
      simp [select_application, select_go, SUPPORTED_AIDS, h0, h1, e0, e1,
        transmit_apdu, pushT, hT, hT2, okSW]
    | ok data2 sx1 sx2 =>
      by_cases hsw : sx1 = 0x90 ∧ sx2 = 0x00
      · simp [select_application, select_go, SUPPORTED_AIDS, h0, h1, e0, e1,
          transmit_apdu, pushT, hT, hT2, okSW, hsw]
      · have : ¬(sx1 == 0x90 && sx2 == 0x00) = true := by
          simpa [Nat.beq_eq_true_eq] using hsw
        simp [select_application, select_go, SUPPORTED_AIDS, h0, h1, e0, e1,
          transmit_apdu, pushT, hT, hT2, okSW, hsw, this]
  | ok data sw1 sw2 =>
    by_cases hsw : sw1 = 0x90 ∧ sw2 = 0x00
    · simp [select_application, select_go, SUPPORTED_AIDS, h0, h1, e0, e1,
        transmit_apdu, pushT, hT, okSW, hsw]
    · have hb : ¬(sw1 == 0x90 && sw2 == 0x00) = true := by
        simpa [Nat.beq_eq_true_eq] using hsw
      cases hT2 : T (s.idx + 1) with
      | fault =>
        simp [select_application, select_go, SUPPORTED_AIDS, h0, h1, e0, e1,
          transmit_apdu, pushT, hT, hT2, okSW, hsw, hb]
      | ok data2 sx1 sx2 =>
        by_cases hsw2 : sx1 = 0x90 ∧ sx2 = 0x00
        · simp [select_application, select_go, SUPPORTED_AIDS, h0, h1, e0, e1,
            transmit_apdu, pushT, hT, hT2, okSW, hsw, hb, hsw2]
        · have hb2 : ¬(sx1 == 0x90 && sx2 == 0x00) = true := by
            simpa [Nat.beq_eq_true_eq] using hsw2
          simp [select_application, select_go, SUPPORTED_AIDS, h0, h1, e0, e1,
            transmit_apdu, pushT, hT, hT2, okSW, hsw, hb, hsw2, hb2]

lemma readSlots_eq (T : Nat → TResp) (sfi : Nat) (rns : List Nat) (s : RState) :
    readSlots T sfi rns s =
      (slotsTxs T sfi rns s.idx,
       ⟨s.idx + (slotsDelta T sfi rns s.idx).length,
        s.trace ++ slotsDelta T sfi rns s.idx, s.selected_aid⟩) := by
  induction rns generalizing s with
  | nil => cases s; simp [readSlots, slotsTxs, slotsDelta]
  | cons rn rest ih =>
    cases hT : T s.idx with
    | fault =>
      simp [readSlots, transmit_apdu, pushT, hT, slotsTxs, slotsDelta, contOkB]
    | ok data sw1 sw2 =>
      simp only [readSlots, transmit_apdu, pushT, hT, slotsTxs, slotsDelta]
      by_cases hc : slotOk data sw1 sw2
      · have hcb : contOkB (TResp.ok data sw1 sw2) = true := by
          simp only [contOkB, decide_eq_true_eq]
          exact hc
        rw [if_pos hc, if_pos hc, hcb, if_pos rfl]
        cases hp : parse_transaction_record (toHexString data) with
        | none =>
          rw [ih]
          simp [List.append_assoc, Nat.add_assoc]
          omega
        | some tx =>
          rw [ih]
          simp [List.append_assoc, Nat.add_assoc]
          omega
      · have hcb : contOkB (TResp.ok data sw1 sw2) = false := by
          simp only [contOkB, decide_eq_false_iff_not]
          exact hc
        rw [if_neg hc, if_neg hc, hcb]
        simp

lemma readLocations_eq (T : Nat → TResp) (max : Nat) (sfis : List Nat) (s : RState) :
    readLocations T max sfis s =
      (locsTxs T max sfis s.idx,
       ⟨s.idx + (locsDelta T max sfis s.idx).length,
        s.trace ++ locsDelta T max sfis s.idx, s.selected_aid⟩) := by
  induction sfis generalizing s with
  | nil => cases s; simp [readLocations, locsTxs, locsDelta]
  | cons sfi rest ih =>
    by_cases h : slotsTxs T sfi (List.range' 1 max) s.idx = []
    · simp [readLocations, readSlots_eq, locsTxs, locsDelta, h, ih,
        List.append_assoc, Nat.add_assoc, List.length_append]
    · simp [readLocations, readSlots_eq, locsTxs, locsDelta, h]

lemma read_transactions_eq (T : Nat → TResp) (max : Nat) (s : RState) :
    read_transactions T none max s =
      ((locsTxs T max [24, 21, 18, 15, 3, 2] s.idx).mergeSort
         (fun a b => decide (b.datetime ≤ a.datetime)),
       ⟨s.idx + (locsDelta T max [24, 21, 18, 15, 3, 2] s.idx).length,
        s.trace ++ locsDelta T max [24, 21, 18, 15, 3, 2] s.idx, s.selected_aid⟩) := by
  simp [read_transactions, readLocations_eq]

/- ### Trace lemmas for the ledger enumeration -/

lemma slotsDelta_shape {T : Nat → TResp} {sfi : Nat} {rns : List Nat} {i : Nat} {e} :
    e ∈ slotsDelta T sfi rns i → ∃ rn ∈ rns, e.1 = recApdu sfi rn := by
  induction rns generalizing i with
  | nil => simp [slotsDelta]
  | cons rn rest ih =>
    intro h
    simp only [slotsDelta, List.mem_cons] at h
    rcases h with h | h
    · exact ⟨rn, by simp, by simp [h]⟩
    · by_cases hc : contOkB (T i)
      · rw [if_pos hc] at h
        obtain ⟨rn2, hrn2, he⟩ := ih h
        exact ⟨rn2, by simp [hrn2], he⟩
      · rw [if_neg hc] at h
        simp at h

lemma slotsDelta_range {T : Nat → TResp} {sfi a m i k n : Nat} {r : TResp}
    (h : (recApdu k n, r) ∈ slotsDelta T sfi (List.range' a m) i) :
    k = sfi ∧ a ≤ n ∧ n < a + m := by
  obtain ⟨rn, hrn, he⟩ := slotsDelta_shape h
  obtain ⟨hk, hn⟩ := recApdu_inj he
  obtain ⟨j, hj, rfl⟩ := List.mem_range'.1 hrn
  omega

lemma slotsDelta_stop {T : Nat → TResp} {sfi : Nat} : ∀ {a m i n : Nat} {r r2 : TResp},
    (recApdu sfi n, r) ∈ slotsDelta T sfi (List.range' a m) i → contOkB r = false →
    (recApdu sfi (n + 1), r2) ∉ slotsDelta T sfi (List.range' a m) i := by
  intro a m
  induction m generalizing a with
  | zero => simp [slotsDelta]
  | succ m ih =>
    intro i n r r2 hmem hbad hnext
    rw [List.range'_succ] at hmem hnext
    simp only [slotsDelta, List.mem_cons] at hmem hnext
    rcases hmem with hm | hm
    · -- slot n is the head slot a
      obtain ⟨ha, hr⟩ : recApdu sfi n = recApdu sfi a ∧ r = T i := by
        exact ⟨congrArg Prod.fst hm, congrArg Prod.snd hm⟩
      obtain ⟨-, hna⟩ := recApdu_inj ha
      subst hna
      rw [← hr, hbad] at hnext
      simp only [if_neg Bool.false_ne_true] at hnext
      rcases hnext with hx | hx
      · obtain ⟨-, hcontra⟩ := recApdu_inj (congrArg Prod.fst hx)
        omega
      · simp at hx
    · -- slot n lies in the tail, so the head continued
      by_cases hc : contOkB (T i)
      · rw [if_pos hc] at hm
        have hrange := slotsDelta_range hm
        rcases hnext with hx | hx
        · obtain ⟨-, hcontra⟩ := recApdu_inj (congrArg Prod.fst hx)
          omega
        · rw [if_pos hc] at hx
          exact ih hm hbad hx
      · rw [if_neg hc] at hm
        simp at hm

lemma slotsDelta_cont {T : Nat → TResp} {sfi : Nat} : ∀ {a m i n : Nat} {r : TResp},
    (recApdu sfi n, r) ∈ slotsDelta T sfi (List.range' a m) i → contOkB r = true →
    n + 1 < a + m → ∃ r2, (recApdu sfi (n + 1), r2) ∈ slotsDelta T sfi (List.range' a m) i := by
  intro a m
  induction m generalizing a with
  | zero => simp [slotsDelta]
  | succ m ih =>
    intro i n r hmem hok hlt
    rw [List.range'_succ] at hmem ⊢
    simp only [slotsDelta, List.mem_cons] at hmem ⊢
    rcases hmem with hm | hm
    · obtain ⟨ha, hr⟩ : recApdu sfi n = recApdu sfi a ∧ r = T i :=
        ⟨congrArg Prod.fst hm, congrArg Prod.snd hm⟩
      obtain ⟨-, hna⟩ := recApdu_inj ha
      subst hna
      rw [hr] at hok
      rw [if_pos hok]
      -- the tail is the slot loop on slots a+1,... and m ≥ 1, so it opens with slot a+1
      have hm1 : 1 ≤ m := by omega
      obtain ⟨m2, rfl⟩ : ∃ m2, m = m2 + 1 := ⟨m - 1, by omega⟩
      rw [List.range'_succ]
      exact ⟨T (i + 1), Or.inr (by simp [slotsDelta])⟩
    · by_cases hc : contOkB (T i)
      · rw [if_pos hc] at hm
        have hrange := slotsDelta_range hm
        obtain ⟨r2, hr2⟩ := ih hm hok (by omega)
        exact ⟨r2, by rw [if_pos hc]; exact Or.inr hr2⟩
      · rw [if_neg hc] at hm
        simp at hm

lemma slotsTxs_ne_nil_iff {T : Nat → TResp} {sfi : Nat} : ∀ {rns : List Nat} {i : Nat},
    slotsTxs T sfi rns i ≠ [] ↔
      ∃ n r, (recApdu sfi n, r) ∈ slotsDelta T sfi rns i ∧ decodesB r = true := by
  intro rns
  induction rns with
  | nil => simp [slotsTxs, slotsDelta]
  | cons rn rest ih =>
    intro i
    cases hT : T i with
    | fault =>
      have hcb : contOkB TResp.fault = false := rfl
      simp [slotsTxs, slotsDelta, hT, hcb, decodesB]
    | ok data sw1 sw2 =>
      by_cases hc : slotOk data sw1 sw2
      · have hcb : contOkB (TResp.ok data sw1 sw2) = true := by
          simp only [contOkB, decide_eq_true_eq]
          exact hc
        cases hp : parse_transaction_record (toHexString data) with
        | some tx =>
          constructor
          · intro _
            refine ⟨rn, TResp.ok data sw1 sw2, ?_, ?_⟩
            · simp [slotsDelta, hT]
            · simp [decodesB, hcb, hp]
          · intro _
            simp [slotsTxs, hT, hc, hp]
        | none =>
          have hdec : decodesB (TResp.ok data sw1 sw2) = false := by
            simp [decodesB, hp]
          constructor
          · intro hne
            have hne2 : slotsTxs T sfi rest (i + 1) ≠ [] := by
              simpa [slotsTxs, hT, hc, hp] using hne
            obtain ⟨n, r, hmem, hdr⟩ := ih.1 hne2
            exact ⟨n, r, by simp [slotsDelta, hT, hcb, hmem], hdr⟩
          · rintro ⟨n, r, hmem, hdr⟩
            simp only [slotsDelta, hT, if_pos hcb, List.mem_cons] at hmem
            rcases hmem with hx | hx
            · obtain ⟨-, hr⟩ : recApdu sfi n = recApdu sfi rn ∧ r = TResp.ok data sw1 sw2 :=
                ⟨congrArg Prod.fst hx, congrArg Prod.snd hx⟩
              rw [hr, hdec] at hdr
              exact absurd hdr (by simp)
            · have hne2 := ih.2 ⟨n, r, hx, hdr⟩
              simpa [slotsTxs, hT, hc, hp] using hne2
      · have hcb : contOkB (TResp.ok data sw1 sw2) = false := by
          simp only [contOkB, decide_eq_false_iff_not]
          exact hc
        have hdec : decodesB (TResp.ok data sw1 sw2) = false := by
          simp [decodesB, hcb]
        constructor
        · intro hne
          exact absurd (by simp [slotsTxs, hT, hc]) hne
        · rintro ⟨n, r, hmem, hdr⟩
          simp only [slotsDelta, hT, if_neg (by simp [hcb] : ¬contOkB (TResp.ok data sw1 sw2) = true),
            List.mem_cons] at hmem
          rcases hmem with hx | hx
          · obtain hr : r = TResp.ok data sw1 sw2 := congrArg Prod.snd hx
            rw [hr, hdec] at hdr
            exact absurd hdr (by simp)
          · simp at hx

lemma locsDelta_shape {T : Nat → TResp} {max : Nat} : ∀ {sfis : List Nat} {i : Nat} {e},
    e ∈ locsDelta T max sfis i → ∃ k ∈ sfis, ∃ n, 1 ≤ n ∧ n < 1 + max ∧ e.1 = recApdu k n := by
  intro sfis
  induction sfis with
  | nil => simp [locsDelta]
  | cons sfi rest ih =>
    intro i e h
    simp only [locsDelta, List.mem_append] at h
    rcases h with h | h
    · obtain ⟨rn, hrn, he⟩ := slotsDelta_shape h
      obtain ⟨j, hj, rfl⟩ := List.mem_range'.1 hrn
      exact ⟨sfi, by simp, 1 + 1 * j, by omega, by omega, he⟩
    · by_cases hq : slotsTxs T sfi (List.range' 1 max) i = []
      · rw [if_pos hq] at h
        obtain ⟨k, hk, n, h1, h2, he⟩ := ih h
        exact ⟨k, by simp [hk], n, h1, h2, he⟩
      · rw [if_neg hq] at h
        simp at h

lemma locsDelta_stop {T : Nat → TResp} {max : Nat} : ∀ {sfis : List Nat} {i sfi n : Nat}
    {r r2 : TResp}, sfis.Nodup → (recApdu sfi n, r) ∈ locsDelta T max sfis i →
    contOkB r = false → (recApdu sfi (n + 1), r2) ∉ locsDelta T max sfis i := by
  intro sfis
  induction sfis with
  | nil => simp [locsDelta]
  | cons p rest ih =>
    intro i sfi n r r2 hnd hmem hbad hnext
    have hndr : rest.Nodup := (List.nodup_cons.1 hnd).2
    have hpr : p ∉ rest := (List.nodup_cons.1 hnd).1
    simp only [locsDelta, List.mem_append] at hmem hnext
    rcases hmem with hm | hm
    · -- slot n was read at the first location, so sfi = p
      have hsp : sfi = p := (slotsDelta_range hm).1
      subst hsp
      rcases hnext with hx | hx
      · exact slotsDelta_stop hm hbad hx
      · by_cases hq : slotsTxs T sfi (List.range' 1 max) i = []
        · rw [if_pos hq] at hx
          obtain ⟨k, hk, n2, -, -, he⟩ := locsDelta_shape hx
          obtain ⟨hk2, -⟩ := recApdu_inj he
          exact hpr (hk2 ▸ hk)
        · rw [if_neg hq] at hx
          simp at hx
    · by_cases hq : slotsTxs T p (List.range' 1 max) i = []
      · rw [if_pos hq] at hm
        -- slot n was read at a later location, so sfi ∈ rest and sfi ≠ p
        have hsfi : sfi ∈ rest := by
          obtain ⟨k, hk, n2, -, -, he⟩ := locsDelta_shape hm
          obtain ⟨hk2, -⟩ := recApdu_inj he
          exact hk2 ▸ hk
        rcases hnext with hx | hx
        · have := (slotsDelta_range hx).1
          exact hpr (this ▸ hsfi)
        · rw [if_pos hq] at hx
          exact ih hndr hm hbad hx
      · rw [if_neg hq] at hm
        simp at hm

lemma locsDelta_cont {T : Nat → TResp} {max : Nat} : ∀ {sfis : List Nat} {i sfi n : Nat}
    {r : TResp}, sfis.Nodup → (recApdu sfi n, r) ∈ locsDelta T max sfis i →
    contOkB r = true → n + 1 ≤ max →
    ∃ r2, (recApdu sfi (n + 1), r2) ∈ locsDelta T max sfis i := by
  intro sfis
  induction sfis with
  | nil => simp [locsDelta]
  | cons p rest ih =>
    intro i sfi n r hnd hmem hok hle
    have hndr : rest.Nodup := (List.nodup_cons.1 hnd).2
    simp only [locsDelta, List.mem_append] at hmem ⊢
    rcases hmem with hm | hm
    · have hsp : sfi = p := (slotsDelta_range hm).1
      subst hsp
      have hr := slotsDelta_range hm
      obtain ⟨r2, hr2⟩ := slotsDelta_cont hm hok (by omega)
      exact ⟨r2, Or.inl hr2⟩
    · by_cases hq : slotsTxs T p (List.range' 1 max) i = []
      · rw [if_pos hq] at hm
        obtain ⟨r2, hr2⟩ := ih hndr hm hok hle
        exact ⟨r2, Or.inr (by rw [if_pos hq]; exact hr2)⟩
      · rw [if_neg hq] at hm
        simp at hm

lemma locsDelta_first_slot {T : Nat → TResp} {max : Nat} {sfi : Nat} (rest : List Nat)
    (i : Nat) (hmax : 1 ≤ max) :
    (recApdu sfi 1, T i) ∈ locsDelta T max (sfi :: rest) i := by
  obtain ⟨m2, hm2⟩ : ∃ m2, max = m2 + 1 := ⟨max - 1, by omega⟩
  subst hm2
  simp only [locsDelta, List.mem_append]
  left
  rw [List.range'_succ]
  simp [slotsDelta]

lemma locsDelta_loc_stop {T : Nat → TResp} {max : Nat} : ∀ {pre : List Nat}
    {sfis : List Nat} {i sfi : Nat} {post : List Nat}, sfis.Nodup →
    sfis = pre ++ sfi :: post →
    (∃ n r, (recApdu sfi n, r) ∈ locsDelta T max sfis i ∧ decodesB r = true) →
    ∀ k ∈ post, ∀ n2 r2, (recApdu k n2, r2) ∉ locsDelta T max sfis i := by
  intro pre
  induction pre with
  | nil =>
    intro sfis i sfi post hnd hsp hdec k hk n2 r2 hx
    subst hsp
    have hpr : sfi ∉ post := (List.nodup_cons.1 hnd).1
    obtain ⟨n, r, hmem, hdr⟩ := hdec
    simp only [locsDelta, List.mem_append] at hmem hx
    -- the decoding slot must belong to the head location's own delta
    have hmem2 : (recApdu sfi n, r) ∈ slotsDelta T sfi (List.range' 1 max) i := by
      rcases hmem with hm | hm
      · exact hm
      · by_cases hq : slotsTxs T sfi (List.range' 1 max) i = []
        · rw [if_pos hq] at hm
          obtain ⟨k2, hk2, n3, -, -, he⟩ := locsDelta_shape hm
          obtain ⟨hk3, -⟩ := recApdu_inj he
          exact absurd (hk3 ▸ hk2) hpr
        · rw [if_neg hq] at hm
          simp at hm
    have hne : slotsTxs T sfi (List.range' 1 max) i ≠ [] :=
      slotsTxs_ne_nil_iff.2 ⟨n, r, hmem2, hdr⟩
    rcases hx with hx | hx
    · have := (slotsDelta_range hx).1
      exact hpr (this ▸ hk)
    · rw [if_neg hne] at hx
      simp at hx
  | cons p pre2 ihp =>
    intro sfis i sfi post hnd hsp hdec k hk n2 r2 hx
    subst hsp
    have hndr : (pre2 ++ sfi :: post).Nodup := (List.nodup_cons.1 hnd).2
    have hpr : p ∉ pre2 ++ sfi :: post := (List.nodup_cons.1 hnd).1
    have hsfi_mem : sfi ∈ pre2 ++ sfi :: post := by simp
    have hk_mem : k ∈ pre2 ++ sfi :: post := by simp [hk]
    obtain ⟨n, r, hmem, hdr⟩ := hdec
    simp only [locsDelta, List.mem_append] at hmem hx
    rcases hmem with hm | hm
    · have := (slotsDelta_range hm).1
      exact hpr (this ▸ hsfi_mem)
    · by_cases hq : slotsTxs T p (List.range' 1 max) i = []
      · rw [if_pos hq] at hm
        rcases hx with hx2 | hx2
        · have := (slotsDelta_range hx2).1
          exact hpr (this ▸ hk_mem)
        · rw [if_pos hq] at hx2
          exact ihp hndr rfl ⟨n, r, hm, hdr⟩ k hk n2 r2 hx2
      · rw [if_neg hq] at hm
        simp at hm

lemma locsDelta_loc_cont {T : Nat → TResp} {max : Nat} : ∀ {pre : List Nat}
    {sfis : List Nat} {i sfi sfi2 : Nat} {post : List Nat}, sfis.Nodup →
    sfis = pre ++ sfi :: sfi2 :: post → 1 ≤ max →
    (∃ r, (recApdu sfi 1, r) ∈ locsDelta T max sfis i) →
    (∀ n r, (recApdu sfi n, r) ∈ locsDelta T max sfis i → decodesB r = false) →
    ∃ r2, (recApdu sfi2 1, r2) ∈ locsDelta T max sfis i := by
  intro pre
  induction pre with
  | nil =>
    intro sfis i sfi sfi2 post hnd hsp hmax hone hall
    subst hsp
    by_cases hq : slotsTxs T sfi (List.range' 1 max) i = []
    · refine ⟨T (i + (slotsDelta T sfi (List.range' 1 max) i).length), ?_⟩
      simp only [locsDelta, List.mem_append]
      right
      rw [if_pos hq]
      exact locsDelta_first_slot post _ hmax
    · obtain ⟨n, r, hmem, hdr⟩ := slotsTxs_ne_nil_iff.1 hq
      have hmem2 : (recApdu sfi n, r) ∈ locsDelta T max (sfi :: sfi2 :: post) i := by
        simp only [locsDelta, List.mem_append]
        exact Or.inl hmem
      have hfalse := hall n r hmem2
      rw [hfalse] at hdr
      exact absurd hdr (by simp)
  | cons p pre2 ihp =>
    intro sfis i sfi sfi2 post hnd hsp hmax hone hall
    subst hsp
    have hndr : (pre2 ++ sfi :: sfi2 :: post).Nodup := (List.nodup_cons.1 hnd).2
    have hpr : p ∉ pre2 ++ sfi :: sfi2 :: post := (List.nodup_cons.1 hnd).1
    have hsfi_mem : sfi ∈ pre2 ++ sfi :: sfi2 :: post := by simp
    by_cases hq : slotsTxs T p (List.range' 1 max) i = []
    · obtain ⟨r, hr⟩ := hone
      simp only [locsDelta, List.mem_append] at hr
      rcases hr with hr | hr
      · have := (slotsDelta_range hr).1
        exact absurd (this ▸ hsfi_mem) hpr
      · rw [if_pos hq] at hr
        have hall2 : ∀ n r0, (recApdu sfi n, r0) ∈
            locsDelta T max (pre2 ++ sfi :: sfi2 :: post)
              (i + (slotsDelta T p (List.range' 1 max) i).length) → decodesB r0 = false := by
          intro n r0 hmem0
          refine hall n r0 ?_
          simp only [locsDelta, List.mem_append]
          right
          rw [if_pos hq]
          exact hmem0
        obtain ⟨r2, hr2⟩ := ihp hndr rfl hmax ⟨r, hr⟩ hall2
        refine ⟨r2, ?_⟩
        simp only [locsDelta, List.mem_append]
        right
        rw [if_pos hq]
        exact hr2
    · obtain ⟨r, hr⟩ := hone
      simp only [locsDelta, List.mem_append] at hr
      rcases hr with hr | hr
      · have := (slotsDelta_range hr).1
        exact absurd (this ▸ hsfi_mem) hpr
      · rw [if_neg hq] at hr
        simp at hr

/- ### Field lemmas for the `_strptime` regex model -/

lemma mem_alt2 {p q : Char → Bool} {f : Char → Char → Nat} {l r : List Char} {v : Nat}
    (h : (v, r) ∈ alt2 p q f l) :
    ∃ c1 c2, l = c1 :: c2 :: r ∧ p c1 = true ∧ q c2 = true ∧ v = f c1 c2 := by
  cases l with
  | nil => simp [alt2] at h
  | cons c1 t =>
    cases t with
    | nil => simp [alt2] at h
    | cons c2 r2 =>
      simp only [alt2] at h
      split_ifs at h with hpq
      · simp only [List.mem_singleton, Prod.mk.injEq] at h
        obtain ⟨hv, hr⟩ := h
        obtain ⟨hp, hq⟩ := Bool.and_eq_true_iff.1 hpq
        exact ⟨c1, c2, by rw [hr], hp, hq, hv⟩
      · simp at h

lemma mem_alt1 {p : Char → Bool} {f : Char → Nat} {l r : List Char} {v : Nat}
    (h : (v, r) ∈ alt1 p f l) :
    ∃ c1, l = c1 :: r ∧ p c1 = true ∧ v = f c1 := by
  cases l with
  | nil => simp [alt1] at h
  | cons c1 r2 =>
    simp only [alt1] at h
    split_ifs at h with hp
    · simp only [List.mem_singleton, Prod.mk.injEq] at h
      obtain ⟨hv, hr⟩ := h
      exact ⟨c1, by rw [hr], hp, hv⟩
    · simp at h

lemma mem_altsMon {l r : List Char} {v : Nat} (h : (v, r) ∈ altsMon l) :
    (∃ c1 c2, l = c1 :: c2 :: r ∧ 48 ≤ c1.toNat ∧ c1.toNat ≤ 57 ∧ 48 ≤ c2.toNat ∧
      c2.toNat ≤ 57 ∧ v = 10 * (c1.toNat - 48) + (c2.toNat - 48) ∧ 1 ≤ v ∧ v ≤ 12) ∨
    (∃ c1, l = c1 :: r ∧ 48 ≤ c1.toNat ∧ c1.toNat ≤ 57 ∧ v = c1.toNat - 48 ∧
      1 ≤ v ∧ v ≤ 9) := by
  simp only [altsMon, List.mem_append] at h
  rcases h with (h | h) | h
  · obtain ⟨c1, c2, hl, hp, hq, hv⟩ := mem_alt2 h
    simp only [chEq, beq_iff_eq] at hp
    simp only [chBetween, Bool.and_eq_true, decide_eq_true_eq] at hq
    exact Or.inl ⟨c1, c2, hl, by omega, by omega, by omega, by omega,
      by simp [hv, val2, dv] <;> omega, by simp [hv, val2, dv] <;> omega, by simp [hv, val2, dv] <;> omega⟩
  · obtain ⟨c1, c2, hl, hp, hq, hv⟩ := mem_alt2 h
    simp only [chEq, beq_iff_eq] at hp
    simp only [chBetween, Bool.and_eq_true, decide_eq_true_eq] at hq
    exact Or.inl ⟨c1, c2, hl, by omega, by omega, by omega, by omega,
      by simp [hv, val2, dv] <;> omega, by simp [hv, val2, dv] <;> omega, by simp [hv, val2, dv] <;> omega⟩
  · obtain ⟨c1, hl, hp, hv⟩ := mem_alt1 h
    simp only [chBetween, Bool.and_eq_true, decide_eq_true_eq] at hp
    exact Or.inr ⟨c1, hl, by omega, by omega, by simp [hv, dv], by simp [hv, dv] <;> omega,
      by simp [hv, dv] <;> omega⟩

lemma mem_altsDay {l r : List Char} {v : Nat} (h : (v, r) ∈ altsDay l) :
    (∃ c1 c2, l = c1 :: c2 :: r ∧ 48 ≤ c1.toNat ∧ c1.toNat ≤ 57 ∧ 48 ≤ c2.toNat ∧
      c2.toNat ≤ 57 ∧ v = 10 * (c1.toNat - 48) + (c2.toNat - 48) ∧ 1 ≤ v ∧ v ≤ 31) ∨
    (∃ c1, l = c1 :: r ∧ 48 ≤ c1.toNat ∧ c1.toNat ≤ 57 ∧ v = c1.toNat - 48 ∧
      1 ≤ v ∧ v ≤ 9) := by
  simp only [altsDay, List.mem_append] at h
  rcases h with ((h | h) | h) | h
  · obtain ⟨c1, c2, hl, hp, hq, hv⟩ := mem_alt2 h
    simp only [chEq, beq_iff_eq] at hp
    simp only [chBetween, Bool.and_eq_true, decide_eq_true_eq] at hq
    exact Or.inl ⟨c1, c2, hl, by omega, by omega, by omega, by omega,
      by simp [hv, val2, dv] <;> omega, by simp [hv, val2, dv] <;> omega, by simp [hv, val2, dv] <;> omega⟩
  · obtain ⟨c1, c2, hl, hp, hq, hv⟩ := mem_alt2 h
    simp only [chBetween, Bool.and_eq_true, decide_eq_true_eq] at hp
    simp only [isDig, Bool.and_eq_true, decide_eq_true_eq] at hq
    exact Or.inl ⟨c1, c2, hl, by omega, by omega, by omega, by omega,
      by simp [hv, val2, dv] <;> omega, by simp [hv, val2, dv] <;> omega, by simp [hv, val2, dv] <;> omega⟩
  · obtain ⟨c1, c2, hl, hp, hq, hv⟩ := mem_alt2 h
    simp only [chEq, beq_iff_eq] at hp
    simp only [chBetween, Bool.and_eq_true, decide_eq_true_eq] at hq
    exact Or.inl ⟨c1, c2, hl, by omega, by omega, by omega, by omega,
      by simp [hv, val2, dv] <;> omega, by simp [hv, val2, dv] <;> omega, by simp [hv, val2, dv] <;> omega⟩
  · obtain ⟨c1, hl, hp, hv⟩ := mem_alt1 h
    simp only [chBetween, Bool.and_eq_true, decide_eq_true_eq] at hp
    exact Or.inr ⟨c1, hl, by omega, by omega, by simp [hv, dv], by simp [hv, dv] <;> omega,
      by simp [hv, dv] <;> omega⟩

lemma mem_altsHour {l r : List Char} {v : Nat} (h : (v, r) ∈ altsHour l) :
    (∃ c1 c2, l = c1 :: c2 :: r ∧ 48 ≤ c1.toNat ∧ c1.toNat ≤ 57 ∧ 48 ≤ c2.toNat ∧
      c2.toNat ≤ 57 ∧ v = 10 * (c1.toNat - 48) + (c2.toNat - 48) ∧ v ≤ 23) ∨
    (∃ c1, l = c1 :: r ∧ 48 ≤ c1.toNat ∧ c1.toNat ≤ 57 ∧ v = c1.toNat - 48 ∧ v ≤ 9) := by
  simp only [altsHour, List.mem_append] at h
  rcases h with (h | h) | h
  · obtain ⟨c1, c2, hl, hp, hq, hv⟩ := mem_alt2 h
    simp only [chEq, beq_iff_eq] at hp
    simp only [chBetween, Bool.and_eq_true, decide_eq_true_eq] at hq
    exact Or.inl ⟨c1, c2, hl, by omega, by omega, by omega, by omega,
      by simp [hv, val2, dv], by simp [hv, val2, dv] <;> omega⟩
  · obtain ⟨c1, c2, hl, hp, hq, hv⟩ := mem_alt2 h
    simp only [chBetween, Bool.and_eq_true, decide_eq_true_eq] at hp
    simp only [isDig, Bool.and_eq_true, decide_eq_true_eq] at hq
    exact Or.inl ⟨c1, c2, hl, by omega, by omega, by omega, by omega,
      by simp [hv, val2, dv], by simp [hv, val2, dv] <;> omega⟩
  · obtain ⟨c1, hl, hp, hv⟩ := mem_alt1 h
    simp only [isDig, Bool.and_eq_true, decide_eq_true_eq] at hp
    exact Or.inr ⟨c1, hl, by omega, by omega, by simp [hv, dv], by simp [hv, dv] <;> omega⟩

lemma mem_altsMin {l r : List Char} {v : Nat} (h : (v, r) ∈ altsMin l) :
    (∃ c1 c2, l = c1 :: c2 :: r ∧ 48 ≤ c1.toNat ∧ c1.toNat ≤ 57 ∧ 48 ≤ c2.toNat ∧
      c2.toNat ≤ 57 ∧ v = 10 * (c1.toNat - 48) + (c2.toNat - 48) ∧ v ≤ 59) ∨
    (∃ c1, l = c1 :: r ∧ 48 ≤ c1.toNat ∧ c1.toNat ≤ 57 ∧ v = c1.toNat - 48 ∧ v ≤ 9) := by
  simp only [altsMin, List.mem_append] at h
  rcases h with h | h
  · obtain ⟨c1, c2, hl, hp, hq, hv⟩ := mem_alt2 h
    simp only [chBetween, Bool.and_eq_true, decide_eq_true_eq] at hp
    simp only [isDig, Bool.and_eq_true, decide_eq_true_eq] at hq
    exact Or.inl ⟨c1, c2, hl, by omega, by omega, by omega, by omega,
      by simp [hv, val2, dv], by simp [hv, val2, dv] <;> omega⟩
  · obtain ⟨c1, hl, hp, hv⟩ := mem_alt1 h
    simp only [isDig, Bool.and_eq_true, decide_eq_true_eq] at hp
    exact Or.inr ⟨c1, hl, by omega, by omega, by simp [hv, dv], by simp [hv, dv] <;> omega⟩

lemma mem_altsSec {l r : List Char} {v : Nat} (h : (v, r) ∈ altsSec l) :
    (∃ c1 c2, l = c1 :: c2 :: r ∧ 48 ≤ c1.toNat ∧ c1.toNat ≤ 57 ∧ 48 ≤ c2.toNat ∧
      c2.toNat ≤ 57 ∧ v = 10 * (c1.toNat - 48) + (c2.toNat - 48) ∧ v ≤ 61) ∨
    (∃ c1, l = c1 :: r ∧ 48 ≤ c1.toNat ∧ c1.toNat ≤ 57 ∧ v = c1.toNat - 48 ∧ v ≤ 9) := by
  simp only [altsSec, List.mem_append] at h
  rcases h with (h | h) | h
  · obtain ⟨c1, c2, hl, hp, hq, hv⟩ := mem_alt2 h
    simp only [chEq, beq_iff_eq] at hp
    simp only [chBetween, Bool.and_eq_true, decide_eq_true_eq] at hq
    exact Or.inl ⟨c1, c2, hl, by omega, by omega, by omega, by omega,
      by simp [hv, val2, dv] <;> omega, by simp [hv, val2, dv] <;> omega⟩
  · obtain ⟨c1, c2, hl, hp, hq, hv⟩ := mem_alt2 h
    simp only [chBetween, Bool.and_eq_true, decide_eq_true_eq] at hp
    simp only [isDig, Bool.and_eq_true, decide_eq_true_eq] at hq
    exact Or.inl ⟨c1, c2, hl, by omega, by omega, by omega, by omega,
      by simp [hv, val2, dv], by simp [hv, val2, dv] <;> omega⟩
  · obtain ⟨c1, hl, hp, hv⟩ := mem_alt1 h
    simp only [isDig, Bool.and_eq_true, decide_eq_true_eq] at hp
    exact Or.inr ⟨c1, hl, by omega, by omega, by simp [hv, dv], by simp [hv, dv] <;> omega⟩

lemma altsMon_std {c1 c2 : Char} (r : List Char) (h1 : 48 ≤ c1.toNat) (h2 : c1.toNat ≤ 57)
    (h3 : 48 ≤ c2.toNat) (h4 : c2.toNat ≤ 57) (hlo : 1 ≤ val2 c1 c2) (hhi : val2 c1 c2 ≤ 12) :
    ∃ tail, altsMon (c1 :: c2 :: r) = (val2 c1 c2, r) :: tail := by
  have hv : val2 c1 c2 = 10 * (c1.toNat - 48) + (c2.toNat - 48) := by simp [val2, dv]
  have hn1 : c1.toNat = 48 ∨ c1.toNat = 49 := by omega
  rcases hn1 with h48 | h49
  · refine ⟨[], ?_⟩
    have e1 : chEq 49 c1 = false := by simp [chEq]; omega
    have e2 : chEq 48 c1 = true := by simp [chEq]; omega
    have e3 : chBetween 49 57 c2 = true := by simp [chBetween]; omega
    have e4 : chBetween 49 57 c1 = false := by simp [chBetween]; omega
    simp [altsMon, alt2, alt1, e1, e2, e3, e4, val2, dv]
  · refine ⟨[(dv c1, c2 :: r)], ?_⟩
    have e1 : chEq 49 c1 = true := by simp [chEq]; omega
    have e2 : chBetween 48 50 c2 = true := by simp [chBetween]; omega
    have e3 : chEq 48 c1 = false := by simp [chEq]; omega
    have e4 : chBetween 49 57 c1 = true := by simp [chBetween]; omega
    simp [altsMon, alt2, alt1, e1, e2, e3, e4, val2, dv]

lemma altsDay_std {c1 c2 : Char} (r : List Char) (h1 : 48 ≤ c1.toNat) (h2 : c1.toNat ≤ 57)
    (h3 : 48 ≤ c2.toNat) (h4 : c2.toNat ≤ 57) (hlo : 1 ≤ val2 c1 c2) (hhi : val2 c1 c2 ≤ 31) :
    ∃ tail, altsDay (c1 :: c2 :: r) = (val2 c1 c2, r) :: tail := by
  have hv : val2 c1 c2 = 10 * (c1.toNat - 48) + (c2.toNat - 48) := by simp [val2, dv]
  have hn1 : c1.toNat = 48 ∨ c1.toNat = 49 ∨ c1.toNat = 50 ∨ c1.toNat = 51 := by omega
  rcases hn1 with h48 | h49 | h50 | h51
  · refine ⟨[], ?_⟩
    have e1 : chEq 51 c1 = false := by simp [chEq]; omega
    have e2 : chBetween 49 50 c1 = false := by simp [chBetween]; omega
    have e3 : chEq 48 c1 = true := by simp [chEq]; omega
    have e4 : chBetween 49 57 c2 = true := by simp [chBetween]; omega
    have e5 : chBetween 49 57 c1 = false := by simp [chBetween]; omega
    simp [altsDay, alt2, alt1, e1, e2, e3, e4, e5, val2, dv]
  · refine ⟨[(dv c1, c2 :: r)], ?_⟩
    have e1 : chEq 51 c1 = false := by simp [chEq]; omega
    have e2 : chBetween 49 50 c1 = true := by simp [chBetween]; omega
    have e3 : isDig c2 = true := by simp [isDig]; omega
    have e4 : chEq 48 c1 = false := by simp [chEq]; omega
    have e5 : chBetween 49 57 c1 = true := by simp [chBetween]; omega
    simp [altsDay, alt2, alt1, e1, e2, e3, e4, e5, val2, dv]
  · refine ⟨[(dv c1, c2 :: r)], ?_⟩
    have e1 : chEq 51 c1 = false := by simp [chEq]; omega
    have e2 : chBetween 49 50 c1 = true := by simp [chBetween]; omega
    have e3 : isDig c2 = true := by simp [isDig]; omega
    have e4 : chEq 48 c1 = false := by simp [chEq]; omega
    have e5 : chBetween 49 57 c1 = true := by simp [chBetween]; omega
    simp [altsDay, alt2, alt1, e1, e2, e3, e4, e5, val2, dv]
  · refine ⟨[(dv c1, c2 :: r)], ?_⟩
    have e1 : chEq 51 c1 = true := by simp [chEq]; omega
    have e2 : chBetween 48 49 c2 = true := by simp [chBetween]; omega
    have e3 : chBetween 49 50 c1 = false := by simp [chBetween]; omega
    have e4 : chEq 48 c1 = false := by simp [chEq]; omega
    have e5 : chBetween 49 57 c1 = true := by simp [chBetween]; omega
    simp [altsDay, alt2, alt1, e1, e2, e3, e4, e5, val2, dv]

lemma altsHour_std {c1 c2 : Char} (r : List Char) (h1 : 48 ≤ c1.toNat) (h2 : c1.toNat ≤ 57)
    (h3 : 48 ≤ c2.toNat) (h4 : c2.toNat ≤ 57) (hhi : val2 c1 c2 ≤ 23) :
    ∃ tail, altsHour (c1 :: c2 :: r) = (val2 c1 c2, r) :: tail := by
  have hv : val2 c1 c2 = 10 * (c1.toNat - 48) + (c2.toNat - 48) := by simp [val2, dv]
  have hn1 : c1.toNat = 48 ∨ c1.toNat = 49 ∨ c1.toNat = 50 := by omega
  have e0 : isDig c1 = true := by simp [isDig]; omega
  have e9 : isDig c2 = true := by simp [isDig]; omega
  rcases hn1 with h48 | h49 | h50
  · refine ⟨[(dv c1, c2 :: r)], ?_⟩
    have e1 : chEq 50 c1 = false := by simp [chEq]; omega
    have e2 : chBetween 48 49 c1 = true := by simp [chBetween]; omega
    simp [altsHour, alt2, alt1, e1, e2, e0, e9, val2, dv]
  · refine ⟨[(dv c1, c2 :: r)], ?_⟩
    have e1 : chEq 50 c1 = false := by simp [chEq]; omega
    have e2 : chBetween 48 49 c1 = true := by simp [chBetween]; omega
    simp [altsHour, alt2, alt1, e1, e2, e0, e9, val2, dv]
  · refine ⟨[(dv c1, c2 :: r)], ?_⟩
    have e1 : chEq 50 c1 = true := by simp [chEq]; omega
    have e2 : chBetween 48 51 c2 = true := by simp [chBetween]; omega
    have e3 : chBetween 48 49 c1 = false := by simp [chBetween]; omega
    simp [altsHour, alt2, alt1, e1, e2, e3, e0, e9, val2, dv]

lemma altsMin_std {c1 c2 : Char} (r : List Char) (h1 : 48 ≤ c1.toNat) (h2 : c1.toNat ≤ 57)
    (h3 : 48 ≤ c2.toNat) (h4 : c2.toNat ≤ 57) (hhi : val2 c1 c2 ≤ 59) :
    ∃ tail, altsMin (c1 :: c2 :: r) = (val2 c1 c2, r) :: tail := by
  refine ⟨[(dv c1, c2 :: r)], ?_⟩
  have hv : val2 c1 c2 = 10 * (c1.toNat - 48) + (c2.toNat - 48) := by simp [val2, dv]
  have e1 : chBetween 48 53 c1 = true := by simp [chBetween]; omega
  have e2 : isDig c2 = true := by simp [isDig]; omega
  have e3 : isDig c1 = true := by simp [isDig]; omega
  simp [altsMin, alt2, alt1, e1, e2, e3, val2, dv]

lemma altsSec_std {c1 c2 : Char} (r : List Char) (h1 : 48 ≤ c1.toNat) (h2 : c1.toNat ≤ 57)
    (h3 : 48 ≤ c2.toNat) (h4 : c2.toNat ≤ 57) (hhi : val2 c1 c2 ≤ 59) :
    ∃ tail, altsSec (c1 :: c2 :: r) = (val2 c1 c2, r) :: tail := by
  refine ⟨[(dv c1, c2 :: r)], ?_⟩
  have hv : val2 c1 c2 = 10 * (c1.toNat - 48) + (c2.toNat - 48) := by simp [val2, dv]
  have e1 : chEq 54 c1 = false := by simp [chEq]; omega
  have e2 : chBetween 48 53 c1 = true := by simp [chBetween]; omega
  have e3 : isDig c2 = true := by simp [isDig]; omega
  have e4 : isDig c1 = true := by simp [isDig]; omega
  simp [altsSec, alt2, alt1, e1, e2, e3, e4, val2, dv]

lemma year4_eq_some {l r : List Char} {y : Nat} (h : year4 l = some (y, r)) :
    ∃ c1 c2 c3 c4, l = c1 :: c2 :: c3 :: c4 :: r ∧
      48 ≤ c1.toNat ∧ c1.toNat ≤ 57 ∧ 48 ≤ c2.toNat ∧ c2.toNat ≤ 57 ∧
      48 ≤ c3.toNat ∧ c3.toNat ≤ 57 ∧ 48 ≤ c4.toNat ∧ c4.toNat ≤ 57 ∧
      y = 1000 * (c1.toNat - 48) + 100 * (c2.toNat - 48) + 10 * (c3.toNat - 48) +
        (c4.toNat - 48) := by
  rcases l with _ | ⟨c1, _ | ⟨c2, _ | ⟨c3, _ | ⟨c4, r2⟩⟩⟩⟩ <;>
    simp only [year4] at h
  pick_goal 5
  · by_cases b1 : isDig c1 = true <;> by_cases b2 : isDig c2 = true <;>
      by_cases b3 : isDig c3 = true <;> by_cases b4 : isDig c4 = true <;>
      simp only [digitVal, b1, b2, b3, b4, if_true, if_false,
        Bool.not_eq_true] at h <;>
      first
      | (simp only [Option.some.injEq, Prod.mk.injEq] at h
         obtain ⟨hy, hr⟩ := h
         subst hr
         simp only [isDig, Bool.and_eq_true, decide_eq_true_eq] at b1 b2 b3 b4
         exact ⟨c1, c2, c3, c4, rfl, b1.1, b1.2, b2.1, b2.2, b3.1, b3.2, b4.1, b4.2,
           by simp [← hy, dv]⟩)
      | simp at h
  all_goals simp at h

lemma year4_cons {c1 c2 c3 c4 : Char} (r : List Char)
    (b1 : isDig c1 = true) (b2 : isDig c2 = true) (b3 : isDig c3 = true)
    (b4 : isDig c4 = true) :
    year4 (c1 :: c2 :: c3 :: c4 :: r) =
      some (1000 * dv c1 + 100 * dv c2 + 10 * dv c3 + dv c4, r) := by
  simp [year4, digitVal, b1, b2, b3, b4]

lemma findSome?_cons_some {α β : Type} {f : α → Option β} {a : α} {l : List α} {b : β}
    (h : f a = some b) : (a :: l).findSome? f = some b := by
  simp [List.findSome?_cons, h]

lemma strptimeYmd_none_of_short {l : List Char} (hl : l.length < 6) :
    strptimeYmd l = none := by
  cases hs : strptimeYmd l with
  | none => rfl
  | some v =>
    exfalso
    obtain ⟨y, m, d⟩ := v
    simp only [strptimeYmd] at hs
    rcases hm : matchYmd l with _ | ⟨⟨y2, m2, d2⟩, rest⟩
    · rw [hm] at hs
      simp at hs
    · rw [hm] at hs
      cases rest with
      | cons a b => simp at hs
      | nil =>
        simp only [matchYmd] at hm
        rcases hy : year4 l with _ | ⟨y3, r⟩
        · rw [hy] at hm
          simp at hm
        · rw [hy] at hm
          simp only [Option.map_eq_some'] at hm
          obtain ⟨⟨⟨m4, d4⟩, rest4⟩, hmd, hp⟩ := hm
          simp only [Prod.mk.injEq] at hp
          obtain ⟨c1, c2, c3, c4, hl4, -⟩ := year4_eq_some hy
          simp only [matchMD] at hmd
          obtain ⟨mm, hmm, h2⟩ := List.exists_of_findSome?_eq_some hmd
          obtain ⟨dd, hdd, h3⟩ := List.exists_of_findSome?_eq_some h2
          have hw1 : r.length = mm.2.length + 2 ∨ r.length = mm.2.length + 1 := by
            rcases mem_altsMon hmm with ⟨a, b, he, -⟩ | ⟨a, he, -⟩ <;> simp [he] <;> omega
          have hw2 : mm.2.length = dd.2.length + 2 ∨ mm.2.length = dd.2.length + 1 := by
            rcases mem_altsDay hdd with ⟨a, b, he, -⟩ | ⟨a, he, -⟩ <;> simp [he] <;> omega
          have hrest : dd.2 = [] := by
            simp only [Option.some.injEq, Prod.mk.injEq] at h3
            rw [h3.2, hp.2]
          subst hl4
          simp only [List.length_cons, hrest, List.length_nil] at hl hw1 hw2
          omega

lemma strptimeYmd_valid_of_some {l : List Char} {y m d : Nat} (hl : l.length = 8)
    (hs : strptimeYmd l = some (y, m, d)) :
    specValidDate8 l = true ∧ y = fourAt l 0 ∧ m = twoAt l 4 ∧ d = twoAt l 6 := by
  simp only [strptimeYmd] at hs
  rcases hm : matchYmd l with _ | ⟨⟨y2, m2, d2⟩, rest⟩
  · rw [hm] at hs
    simp at hs
  rw [hm] at hs
  cases rest with
  | cons a b => simp at hs
  | nil =>
  replace hs : (if 1 ≤ y2 ∧ d2 ≤ daysInMonth y2 m2 then some (y2, m2, d2) else none) =
      some (y, m, d) := hs
  split_ifs at hs with hck
  simp only [Option.some.injEq, Prod.mk.injEq] at hs
  obtain ⟨hy, hm2, hd2⟩ := hs
  subst hy
  subst hm2
  subst hd2
  simp only [matchYmd] at hm
  rcases hy4 : year4 l with _ | ⟨y3, r⟩
  · rw [hy4] at hm
    simp at hm
  rw [hy4] at hm
  simp only [Option.map_eq_some'] at hm
  obtain ⟨⟨⟨m4, d4⟩, rest4⟩, hmd, hp⟩ := hm
  simp only [Prod.mk.injEq] at hp
  obtain ⟨⟨hy3, hm4, hd4⟩, hr4⟩ := hp
  subst hy3
  subst hm4
  subst hd4
  obtain ⟨c1, c2, c3, c4, hl4, b1a, b1b, b2a, b2b, b3a, b3b, b4a, b4b, hyv⟩ :=
    year4_eq_some hy4
  simp only [matchMD] at hmd
  obtain ⟨mm, hmm, h2⟩ := List.exists_of_findSome?_eq_some hmd
  obtain ⟨dd, hdd, h3⟩ := List.exists_of_findSome?_eq_some h2
  simp only [Option.some.injEq, Prod.mk.injEq] at h3
  obtain ⟨⟨hmv, hdv⟩, hrest⟩ := h3
  subst hmv
  subst hdv
  rw [hr4] at hrest
  have hlr : r.length = 4 := by
    subst hl4
    simp at hl
    omega
  rcases mem_altsDay hdd with ⟨a2, b2, hed, hda, hdb, hdc, hdd2, hdval, hd1, hd31⟩ |
      ⟨a2, hed, -, -, -, -, -⟩
  swap
  · -- a one-character day cannot consume the remaining input
    rcases mem_altsMon hmm with ⟨a1, b1, hem, -, -, -, -, -, -, -⟩ | ⟨a1, hem, -, -, -, -⟩ <;>
      rw [hem] at hlr <;> rw [hed, hrest] at hlr <;> simp at hlr
  rcases mem_altsMon hmm with ⟨a1, b1, hem, hma, hmb, hmc, hmd2, hmval, hm1, hm12⟩ |
      ⟨a1, hem, -, -, -, -⟩
  swap
  · rw [hem] at hlr
    rw [hed, hrest] at hlr
    simp at hlr
  rw [hrest] at hed
  rw [hed] at hem
  rw [hem] at hl4
  subst hl4
  have hA : fourAt (c1 :: c2 :: c3 :: c4 :: a1 :: b1 :: a2 :: b2 :: []) 0 = y3 := by
    simp [fourAt, dv]
    omega
  have hB : twoAt (c1 :: c2 :: c3 :: c4 :: a1 :: b1 :: a2 :: b2 :: []) 4 = mm.1 := by
    simp [twoAt, dv]
    omega
  have hC : twoAt (c1 :: c2 :: c3 :: c4 :: a1 :: b1 :: a2 :: b2 :: []) 6 = dd.1 := by
    simp [twoAt, dv]
    omega
  refine ⟨?_, by rw [hA], by rw [hB], by rw [hC]⟩
  simp only [specValidDate8, hA, hB, hC, Bool.and_eq_true, beq_iff_eq]
  refine ⟨⟨by simp, ?_⟩, ?_⟩
  · simp only [List.all_cons, List.all_nil, Bool.and_eq_true, isDig,
      decide_eq_true_eq]
    refine ⟨⟨?_, ?_⟩, ⟨?_, ?_⟩, ⟨?_, ?_⟩, ⟨?_, ?_⟩, ⟨?_, ?_⟩, ⟨?_, ?_⟩, ⟨?_, ?_⟩,
      ⟨?_, ?_⟩, trivial⟩ <;> omega
  · simp only [validYMD, decide_eq_true_eq]
    exact ⟨hck.1, hm1, hm12, hd1, hck.2⟩

lemma strptimeYmd_of_valid {l : List Char} (h : specValidDate8 l = true) :
    strptimeYmd l = some (fourAt l 0, twoAt l 4, twoAt l 6) := by
  simp only [specValidDate8, Bool.and_eq_true, beq_iff_eq] at h
  obtain ⟨⟨hlen, hdig⟩, hval⟩ := h
  rcases l with _ | ⟨c1, l⟩
  · simp at hlen
  rcases l with _ | ⟨c2, l⟩
  · simp at hlen
  rcases l with _ | ⟨c3, l⟩
  · simp at hlen
  rcases l with _ | ⟨c4, l⟩
  · simp at hlen
  rcases l with _ | ⟨c5, l⟩
  · simp at hlen
  rcases l with _ | ⟨c6, l⟩
  · simp at hlen
  rcases l with _ | ⟨c7, l⟩
  · simp at hlen
  rcases l with _ | ⟨c8, l⟩
  · simp at hlen
  rcases l with _ | ⟨c9, l⟩
  case cons => simp at hlen
  simp only [List.all_cons, List.all_nil, Bool.and_eq_true, and_true] at hdig
  obtain ⟨g1, g2, g3, g4, g5, g6, g7, g8⟩ := hdig
  have w1 : 48 ≤ c1.toNat ∧ c1.toNat ≤ 57 := by simpa [isDig] using g1
  have w2 : 48 ≤ c2.toNat ∧ c2.toNat ≤ 57 := by simpa [isDig] using g2
  have w3 : 48 ≤ c3.toNat ∧ c3.toNat ≤ 57 := by simpa [isDig] using g3
  have w4 : 48 ≤ c4.toNat ∧ c4.toNat ≤ 57 := by simpa [isDig] using g4
  have w5 : 48 ≤ c5.toNat ∧ c5.toNat ≤ 57 := by simpa [isDig] using g5
  have w6 : 48 ≤ c6.toNat ∧ c6.toNat ≤ 57 := by simpa [isDig] using g6
  have w7 : 48 ≤ c7.toNat ∧ c7.toNat ≤ 57 := by simpa [isDig] using g7
  have w8 : 48 ≤ c8.toNat ∧ c8.toNat ≤ 57 := by simpa [isDig] using g8
  simp only [validYMD, decide_eq_true_eq] at hval
  obtain ⟨hy1, hm1, hm12, hd1, hdm⟩ := hval
  have e4 : twoAt [c1, c2, c3, c4, c5, c6, c7, c8] 4 = val2 c5 c6 := by
    simp [twoAt, val2]
  have e6 : twoAt [c1, c2, c3, c4, c5, c6, c7, c8] 6 = val2 c7 c8 := by
    simp [twoAt, val2]
  have e0 : fourAt [c1, c2, c3, c4, c5, c6, c7, c8] 0 =
      1000 * dv c1 + 100 * dv c2 + 10 * dv c3 + dv c4 := by
    simp [fourAt]
  rw [e4] at hm1 hm12 hdm
  rw [e6] at hd1 hdm
  rw [e0] at hy1 hdm
  rw [e0, e4, e6]
  obtain ⟨tailM, hM⟩ := altsMon_std (c7 :: c8 :: []) w5.1 w5.2 w6.1 w6.2 hm1 hm12
  obtain ⟨tailD, hD⟩ := altsDay_std ([] : List Char) w7.1 w7.2 w8.1 w8.2 hd1 (by
    have hdm31 : daysInMonth (1000 * dv c1 + 100 * dv c2 + 10 * dv c3 + dv c4)
        (val2 c5 c6) ≤ 31 := by
      simp only [daysInMonth]
      split_ifs <;> simp <;> omega
    omega)
  have hstep : matchMD [c5, c6, c7, c8] = some ((val2 c5 c6, val2 c7 c8), []) := by
    simp only [matchMD]
    rw [hM]
    apply findSome?_cons_some
    simp only
    rw [hD]
    apply findSome?_cons_some
    rfl
  simp only [strptimeYmd, matchYmd, year4_cons _ g1 g2 g3 g4, hstep, Option.map_some]
  exact if_pos ⟨hy1, hdm⟩

lemma strptimeYmdHMS_valid_of_some {l : List Char} {y m d h mi ss : Nat}
    (hl : l.length = 14) (hs : strptimeYmdHMS l = some (y, m, d, h, mi, ss)) :
    specValidDateTime14 l = true ∧ y = fourAt l 0 ∧ m = twoAt l 4 ∧ d = twoAt l 6 ∧
      h = twoAt l 8 ∧ mi = twoAt l 10 ∧ ss = twoAt l 12 := by
  simp only [strptimeYmdHMS] at hs
  rcases hm : matchYmdHMS l with _ | ⟨⟨y2, m2, d2, h2v, mi2, ss2⟩, rest⟩
  · rw [hm] at hs
    simp at hs
  rw [hm] at hs
  cases rest with
  | cons a b => simp at hs
  | nil =>
  replace hs : (if 1 ≤ y2 ∧ d2 ≤ daysInMonth y2 m2 ∧ ss2 ≤ 59 then
      some (y2, m2, d2, h2v, mi2, ss2) else none) = some (y, m, d, h, mi, ss) := hs
  split_ifs at hs with hck
  simp only [Option.some.injEq, Prod.mk.injEq] at hs
  obtain ⟨hy, hm2, hd2, hh2, hmi2, hss2⟩ := hs
  subst hy
  subst hm2
  subst hd2
  subst hh2
  subst hmi2
  subst hss2
  simp only [matchYmdHMS] at hm
  rcases hy4 : year4 l with _ | ⟨y3, r⟩
  · rw [hy4] at hm
    simp at hm
  rw [hy4] at hm
  simp only [Option.map_eq_some'] at hm
  obtain ⟨⟨⟨m4, d4, h4, mi4, ss4⟩, rest4⟩, hmd, hp⟩ := hm
  simp only [Prod.mk.injEq] at hp
  obtain ⟨⟨hy3, hm4, hd4, hh4, hmi4, hss4⟩, hr4⟩ := hp
  subst hy3
  subst hm4
  subst hd4
  subst hh4
  subst hmi4
  subst hss4
  obtain ⟨c1, c2, c3, c4, hl4, b1a, b1b, b2a, b2b, b3a, b3b, b4a, b4b, hyv⟩ :=
    year4_eq_some hy4
  simp only [matchMDHMS] at hmd
  obtain ⟨mm, hmm, s2⟩ := List.exists_of_findSome?_eq_some hmd
  obtain ⟨dd, hdd, s3⟩ := List.exists_of_findSome?_eq_some s2
  obtain ⟨hh, hhh, s4⟩ := List.exists_of_findSome?_eq_some s3
  obtain ⟨mmi, hmi, s5⟩ := List.exists_of_findSome?_eq_some s4
  obtain ⟨sss, hss, s6⟩ := List.exists_of_findSome?_eq_some s5
  simp only [Option.some.injEq, Prod.mk.injEq] at s6
  obtain ⟨⟨e1, e2, e3, e4, e5⟩, hrest⟩ := s6
  subst e1
  subst e2
  subst e3
  subst e4
  subst e5
  rw [hr4] at hrest
  have hlr : r.length = 10 := by
    subst hl4
    simp at hl
    omega
  have hsl : sss.2.length = 0 := by rw [hrest]; rfl
  have L1 : r.length = mm.2.length + 2 ∨ r.length = mm.2.length + 1 := by
    rcases mem_altsMon hmm with ⟨a, b, he, -⟩ | ⟨a, he, -⟩ <;> simp [he] <;> omega
  have L2 : mm.2.length = dd.2.length + 2 ∨ mm.2.length = dd.2.length + 1 := by
    rcases mem_altsDay hdd with ⟨a, b, he, -⟩ | ⟨a, he, -⟩ <;> simp [he] <;> omega
  have L3 : dd.2.length = hh.2.length + 2 ∨ dd.2.length = hh.2.length + 1 := by
    rcases mem_altsHour hhh with ⟨a, b, he, -⟩ | ⟨a, he, -⟩ <;> simp [he] <;> omega
  have L4 : hh.2.length = mmi.2.length + 2 ∨ hh.2.length = mmi.2.length + 1 := by
    rcases mem_altsMin hmi with ⟨a, b, he, -⟩ | ⟨a, he, -⟩ <;> simp [he] <;> omega
  have L5 : mmi.2.length = sss.2.length + 2 ∨ mmi.2.length = sss.2.length + 1 := by
    rcases mem_altsSec hss with ⟨a, b, he, -⟩ | ⟨a, he, -⟩ <;> simp [he] <;> omega
  have Hall : r.length = mm.2.length + 2 ∧ mm.2.length = dd.2.length + 2 ∧
      dd.2.length = hh.2.length + 2 ∧ hh.2.length = mmi.2.length + 2 ∧
      mmi.2.length = sss.2.length + 2 := by
    rcases L1 with L1 | L1 <;> rcases L2 with L2 | L2 <;> rcases L3 with L3 | L3 <;>
      rcases L4 with L4 | L4 <;> rcases L5 with L5 | L5 <;> omega
  rcases mem_altsMon hmm with ⟨a1, b1, hem, q1a, q1b, q1c, q1d, hmval, hm1, hm12⟩ |
      ⟨a, he, -⟩
  swap
  · exfalso
    rw [he] at hlr
    simp at hlr
    omega
  rcases mem_altsDay hdd with ⟨a2, b2, hed, q2a, q2b, q2c, q2d, hdval, hd1, hd31⟩ |
      ⟨a, he, -⟩
  swap
  · exfalso
    rw [he] at Hall
    simp at Hall
  rcases mem_altsHour hhh with ⟨a3, b3, heh, q3a, q3b, q3c, q3d, hhval, hh23⟩ |
      ⟨a, he, -⟩
  swap
  · exfalso
    rw [he] at Hall
    simp at Hall
  rcases mem_altsMin hmi with ⟨a4, b4, hemi, q4a, q4b, q4c, q4d, hmival, hmi59⟩ |
      ⟨a, he, -⟩
  swap
  · exfalso
    rw [he] at Hall
    simp at Hall
  rcases mem_altsSec hss with ⟨a5, b5, hes, q5a, q5b, q5c, q5d, hssval, hss61⟩ |
      ⟨a, he, -⟩
  swap
  · exfalso
    rw [he] at Hall
    simp at Hall
  rw [hrest] at hes
  rw [hes] at hemi
  rw [hemi] at heh
  rw [heh] at hed
  rw [hed] at hem
  rw [hem] at hl4
  subst hl4
  have hA : fourAt [c1, c2, c3, c4, a1, b1, a2, b2, a3, b3, a4, b4, a5, b5] 0 = y3 := by
    simp [fourAt, dv]
    omega
  have hB : twoAt [c1, c2, c3, c4, a1, b1, a2, b2, a3, b3, a4, b4, a5, b5] 4 = mm.1 := by
    simp [twoAt, dv]
    omega
  have hC : twoAt [c1, c2, c3, c4, a1, b1, a2, b2, a3, b3, a4, b4, a5, b5] 6 = dd.1 := by
    simp [twoAt, dv]
    omega
  have hD : twoAt [c1, c2, c3, c4, a1, b1, a2, b2, a3, b3, a4, b4, a5, b5] 8 = hh.1 := by
    simp [twoAt, dv]
    omega
  have hE : twoAt [c1, c2, c3, c4, a1, b1, a2, b2, a3, b3, a4, b4, a5, b5] 10 = mmi.1 := by
    simp [twoAt, dv]
    omega
  have hF : twoAt [c1, c2, c3, c4, a1, b1, a2, b2, a3, b3, a4, b4, a5, b5] 12 = sss.1 := by
    simp [twoAt, dv]
    omega
  refine ⟨?_, by rw [hA], by rw [hB], by rw [hC], by rw [hD], by rw [hE], by rw [hF]⟩
  simp only [specValidDateTime14, hA, hB, hC, hD, hE, hF, Bool.and_eq_true, beq_iff_eq,
    decide_eq_true_eq]
  refine ⟨⟨⟨⟨⟨by simp, ?_⟩, ?_⟩, hh23⟩, hmi59⟩, hck.2.2⟩
  · simp only [List.all_cons, List.all_nil, Bool.and_eq_true, isDig,
      decide_eq_true_eq]
    refine ⟨⟨?_, ?_⟩, ⟨?_, ?_⟩, ⟨?_, ?_⟩, ⟨?_, ?_⟩, ⟨?_, ?_⟩, ⟨?_, ?_⟩, ⟨?_, ?_⟩,
      ⟨?_, ?_⟩, ⟨?_, ?_⟩, ⟨?_, ?_⟩, ⟨?_, ?_⟩, ⟨?_, ?_⟩, ⟨?_, ?_⟩, ⟨?_, ?_⟩, trivial⟩ <;>
      omega
  · simp only [validYMD, decide_eq_true_eq]
    exact ⟨hck.1, hm1, hm12, hd1, hck.2.1⟩

lemma strptimeYmdHMS_of_valid {l : List Char} (h : specValidDateTime14 l = true) :
    strptimeYmdHMS l = some (fourAt l 0, twoAt l 4, twoAt l 6, twoAt l 8, twoAt l 10,
      twoAt l 12) := by
  simp only [specValidDateTime14, Bool.and_eq_true, beq_iff_eq, decide_eq_true_eq] at h
  obtain ⟨⟨⟨⟨⟨hlen, hdig⟩, hval⟩, hhour⟩, hmin⟩, hsec⟩ := h
  rcases l with _ | ⟨c1, l⟩
  · simp at hlen
  rcases l with _ | ⟨c2, l⟩
  · simp at hlen
  rcases l with _ | ⟨c3, l⟩
  · simp at hlen
  rcases l with _ | ⟨c4, l⟩
  · simp at hlen
  rcases l with _ | ⟨c5, l⟩
  · simp at hlen
  rcases l with _ | ⟨c6, l⟩
  · simp at hlen
  rcases l with _ | ⟨c7, l⟩
  · simp at hlen
  rcases l with _ | ⟨c8, l⟩
  · simp at hlen
  rcases l with _ | ⟨c9, l⟩
  · simp at hlen
  rcases l with _ | ⟨c10, l⟩
  · simp at hlen
  rcases l with _ | ⟨c11, l⟩
  · simp at hlen
  rcases l with _ | ⟨c12, l⟩
  · simp at hlen
  rcases l with _ | ⟨c13, l⟩
  · simp at hlen
  rcases l with _ | ⟨c14, l⟩
  · simp at hlen
  rcases l with _ | ⟨c15, l⟩
  case cons => simp at hlen
  simp only [List.all_cons, List.all_nil, Bool.and_eq_true, and_true] at hdig
  obtain ⟨g1, g2, g3, g4, g5, g6, g7, g8, g9, g10, g11, g12, g13, g14⟩ := hdig
  have w5 : 48 ≤ c5.toNat ∧ c5.toNat ≤ 57 := by simpa [isDig] using g5
  have w6 : 48 ≤ c6.toNat ∧ c6.toNat ≤ 57 := by simpa [isDig] using g6
  have w7 : 48 ≤ c7.toNat ∧ c7.toNat ≤ 57 := by simpa [isDig] using g7
  have w8 : 48 ≤ c8.toNat ∧ c8.toNat ≤ 57 := by simpa [isDig] using g8
  have w9 : 48 ≤ c9.toNat ∧ c9.toNat ≤ 57 := by simpa [isDig] using g9
  have w10 : 48 ≤ c10.toNat ∧ c10.toNat ≤ 57 := by simpa [isDig] using g10
  have w11 : 48 ≤ c11.toNat ∧ c11.toNat ≤ 57 := by simpa [isDig] using g11
  have w12 : 48 ≤ c12.toNat ∧ c12.toNat ≤ 57 := by simpa [isDig] using g12
  have w13 : 48 ≤ c13.toNat ∧ c13.toNat ≤ 57 := by simpa [isDig] using g13
  have w14 : 48 ≤ c14.toNat ∧ c14.toNat ≤ 57 := by simpa [isDig] using g14
  simp only [validYMD, decide_eq_true_eq] at hval
  obtain ⟨hy1, hm1, hm12, hd1, hdm⟩ := hval
  have lch : [c1, c2, c3, c4, c5, c6, c7, c8, c9, c10, c11, c12, c13, c14].length = 14 := by
    simp
  have e0 : fourAt [c1, c2, c3, c4, c5, c6, c7, c8, c9, c10, c11, c12, c13, c14] 0 =
      1000 * dv c1 + 100 * dv c2 + 10 * dv c3 + dv c4 := by
    simp [fourAt]
  have e4 : twoAt [c1, c2, c3, c4, c5, c6, c7, c8, c9, c10, c11, c12, c13, c14] 4 =
      val2 c5 c6 := by
    simp [twoAt, val2]
  have e6 : twoAt [c1, c2, c3, c4, c5, c6, c7, c8, c9, c10, c11, c12, c13, c14] 6 =
      val2 c7 c8 := by
    simp [twoAt, val2]
  have e8 : twoAt [c1, c2, c3, c4, c5, c6, c7, c8, c9, c10, c11, c12, c13, c14] 8 =
      val2 c9 c10 := by
    simp [twoAt, val2]
  have e10 : twoAt [c1, c2, c3, c4, c5, c6, c7, c8, c9, c10, c11, c12, c13, c14] 10 =
      val2 c11 c12 := by
    simp [twoAt, val2]
  have e12 : twoAt [c1, c2, c3, c4, c5, c6, c7, c8, c9, c10, c11, c12, c13, c14] 12 =
      val2 c13 c14 := by
    simp [twoAt, val2]
  rw [e4] at hm1 hm12 hdm
  rw [e6] at hd1 hdm
  rw [e0] at hy1 hdm
  rw [e8] at hhour
  rw [e10] at hmin
  rw [e12] at hsec
  rw [e0, e4, e6, e8, e10, e12]
  obtain ⟨tailM, hM⟩ :=
    altsMon_std (c7 :: c8 :: c9 :: c10 :: c11 :: c12 :: c13 :: c14 :: [])
      w5.1 w5.2 w6.1 w6.2 hm1 hm12
  obtain ⟨tailD, hD⟩ :=
    altsDay_std (c9 :: c10 :: c11 :: c12 :: c13 :: c14 :: []) w7.1 w7.2 w8.1 w8.2 hd1 (by
      have hdm31 : daysInMonth (1000 * dv c1 + 100 * dv c2 + 10 * dv c3 + dv c4)
          (val2 c5 c6) ≤ 31 := by
        simp only [daysInMonth]
        split_ifs <;> simp <;> omega
      omega)
  obtain ⟨tailH, hH⟩ :=
    altsHour_std (c11 :: c12 :: c13 :: c14 :: []) w9.1 w9.2 w10.1 w10.2 hhour
  obtain ⟨tailMi, hMi⟩ :=
    altsMin_std (c13 :: c14 :: []) w11.1 w11.2 w12.1 w12.2 hmin
  obtain ⟨tailS, hS⟩ :=
    altsSec_std ([] : List Char) w13.1 w13.2 w14.1 w14.2 hsec
  have hstep : matchMDHMS [c5, c6, c7, c8, c9, c10, c11, c12, c13, c14] =
      some ((val2 c5 c6, val2 c7 c8, val2 c9 c10, val2 c11 c12, val2 c13 c14), []) := by
    simp only [matchMDHMS]
    rw [hM]
    apply findSome?_cons_some
    simp only
    rw [hD]
    apply findSome?_cons_some
    simp only
    rw [hH]
    apply findSome?_cons_some
    simp only
    rw [hMi]
    apply findSome?_cons_some
    simp only
    rw [hS]
    apply findSome?_cons_some
    rfl
  simp only [strptimeYmdHMS, matchYmdHMS, year4_cons _ g1 g2 g3 g4, hstep, Option.map_some]
  exact if_pos ⟨hy1, hdm, hsec⟩

lemma strptimeYmd_char {l : List Char} (hl : l.length = 8) :
    strptimeYmd l = (if specValidDate8 l then
      some (fourAt l 0, twoAt l 4, twoAt l 6) else none) := by
  by_cases hv : specValidDate8 l = true
  · rw [if_pos hv, strptimeYmd_of_valid hv]
  · rw [if_neg (by simpa using hv)]
    cases hs : strptimeYmd l with
    | none => rfl
    | some v =>
      obtain ⟨y, m, d⟩ := v
      exact absurd (strptimeYmd_valid_of_some hl hs).1 hv

lemma strptimeYmdHMS_char {l : List Char} (hl : l.length = 14) :
    strptimeYmdHMS l = (if specValidDateTime14 l then
      some (fourAt l 0, twoAt l 4, twoAt l 6, twoAt l 8, twoAt l 10, twoAt l 12)
      else none) := by
  by_cases hv : specValidDateTime14 l = true
  · rw [if_pos hv, strptimeYmdHMS_of_valid hv]
  · rw [if_neg (by simpa using hv)]
    cases hs : strptimeYmdHMS l with
    | none => rfl
    | some v =>
      obtain ⟨y, m, d, h, mi, ss⟩ := v
      exact absurd (strptimeYmdHMS_valid_of_some hl hs).1 hv

/- ### Hex rendering facts -/

lemma hex02_eq_of_lt {b : Nat} (hb : b < 256) :
    hex02 b = [hexDigitCh (b / 16), hexDigitCh (b % 16)] := by
  by_cases h16 : b < 16
  · simp only [hex02, if_pos h16]
    have h0 : b / 16 = 0 := by omega
    have h1 : b % 16 = b := by omega
    rw [h0, h1]
    rfl
  · simp only [hex02, if_neg h16]
    obtain ⟨k, rfl⟩ : ∃ k, b = k + 1 := ⟨b - 1, by omega⟩
    rw [toHexDigits, toHexDigitsAux, if_neg h16]
    obtain ⟨k2, hk2⟩ : ∃ k2, k = k2 + 1 := ⟨k - 1, by omega⟩
    rw [hk2, toHexDigitsAux, if_pos (by omega)]
    rfl

lemma hex02_length {b : Nat} (hb : b < 256) : (hex02 b).length = 2 := by
  rw [hex02_eq_of_lt hb]
  rfl

lemma flatMap_hex02_length {data : List Nat} (h : ∀ b ∈ data, b < 256) :
    (data.flatMap hex02).length = 2 * data.length := by
  induction data with
  | nil => rfl
  | cons b rest ih =>
    simp only [List.flatMap_cons, List.length_append, List.length_cons]
    rw [hex02_length (h b (by simp)), ih (fun x hx => h x (by simp [hx]))]
    ring

lemma pyFromHex_lt_aux : ∀ (n : Nat) (l : List Char), l.length ≤ n → ∀ {data : List Nat},
    pyFromHex l = some data → ∀ b ∈ data, b < 256 := by
  intro n
  induction n with
  | zero =>
    intro l hl data h b hb
    rcases l with _ | ⟨c, t⟩
    · simp only [pyFromHex, Option.some.injEq] at h
      subst h
      simp at hb
    · simp at hl
  | succ n ihn =>
    intro l hl data h b hb
    rcases l with _ | ⟨c, _ | ⟨c2, rest⟩⟩
    · simp only [pyFromHex, Option.some.injEq] at h
      subst h
      simp at hb
    · simp only [pyFromHex] at h
      split_ifs at h
      simp only [Option.some.injEq] at h
      subst h
      simp at hb
    · by_cases hsp : isPySpace c = true
      · rw [pyFromHex, if_pos hsp] at h
        exact ihn (c2 :: rest) (by simp at hl ⊢; omega) h b hb
      · rw [pyFromHex, if_neg hsp] at h
        rcases hv1 : hexVal c with _ | v1
        · rw [hv1] at h
          simp at h
        rcases hv2 : hexVal c2 with _ | v2
        · rw [hv1, hv2] at h
          simp at h
        rw [hv1, hv2] at h
        simp only [Option.map_eq_some'] at h
        obtain ⟨bs, hbs, hdata⟩ := h
        subst hdata
        rcases List.mem_cons.1 hb with hb2 | hb2
        · subst hb2
          simp only [hexVal] at hv1 hv2
          split_ifs at hv1 hv2 <;> simp only [Option.some.injEq] at hv1 hv2 <;> omega
        · exact ihn rest (by simp at hl ⊢; omega) hbs b hb2

lemma pyFromHex_lt {l : List Char} {data : List Nat} (h : pyFromHex l = some data) :
    ∀ b ∈ data, b < 256 :=
  pyFromHex_lt_aux l.length l (Nat.le_refl _) h

/- ### Characterization of the record parser -/

lemma dt_slices (data : List Nat) :
    ((data.drop 16).take 4).flatMap hex02 ++ ((data.drop 20).take 3).flatMap hex02 =
      ((data.drop 16).take 7).flatMap hex02 := by
  rw [← List.flatMap_append]
  congr 1
  have h1 : (data.drop 16).take 7 = (data.drop 16).take 4 ++ ((data.drop 16).drop 4).take 3 :=
    List.take_add _ 4 3
  have h2 : (data.drop 16).drop 4 = data.drop 20 := by
    rw [List.drop_drop]
  rw [h1, h2]

lemma dtChars_length {data : List Nat} (h256 : ∀ b ∈ data, b < 256)
    (hlen : 23 ≤ data.length) :
    (((data.drop 16).take 7).flatMap hex02).length = 14 := by
  rw [flatMap_hex02_length (fun b hb => h256 b
    (List.mem_of_mem_drop (List.mem_of_mem_take hb)))]
  simp only [List.length_take, List.length_drop]
  omega

lemma parse_transaction_record_eq {str : String} {data : List Nat}
    (h : pyFromHex (str.data.filter (fun c => c != ' ')) = some data)
    (hlen : 23 ≤ data.length) :
    parse_transaction_record str = some
      { amount := (intFromBytesBE ((data.drop 5).take 4) : ℚ) / 100,
        datetime := specTimestamp data,
        transport_type :=
          match TRANSACTION_TYPES.lookup (data.getD 9 0) with
          | some t => t
          | none => "未知(" ++ String.mk (hex02 (data.getD 9 0)) ++ ")",
        station_gate_info := String.mk (((data.drop 10).take 6).flatMap hex02),
        raw := str } := by
  have hl14 := dtChars_length (pyFromHex_lt h) hlen
  have hsp : (match strptimeYmdHMS (((data.drop 16).take 4).flatMap hex02 ++
        ((data.drop 20).take 3).flatMap hex02) with
      | some (y, m, d, hh, mi, ss) => fmtDashed y m d hh mi ss
      | none => "未知日期时间") = specTimestamp data := by
    rw [dt_slices, strptimeYmdHMS_char hl14]
    by_cases hv : specValidDateTime14 (((data.drop 16).take 7).flatMap hex02) = true
    · rw [if_pos hv]
      simp [specTimestamp, hv]
    · rw [if_neg (by simpa using hv)]
      simp [specTimestamp, hv]
  simp only [parse_transaction_record, h]
  rw [if_neg (by omega)]
  rw [hsp]

/- ### Characterization of the identity decoder -/

lemma decodeId_eq_of_len28 {data : List Nat} (hlen : 28 ≤ data.length)
    (h256 : ∀ b ∈ data, b < 256) :
    decodeId (TResp.ok data 0x90 0x00) =
      (if specValidDate8 (((data.flatMap hex02).drop 40).take 8) ∧
          specValidDate8 (((data.flatMap hex02).drop 48).take 8) then
        some { card_number := String.mk (((data.flatMap hex02).drop 20).take 20),
               start_date := fmtSlash (fourAt (((data.flatMap hex02).drop 40).take 8) 0)
                 (twoAt (((data.flatMap hex02).drop 40).take 8) 4)
                 (twoAt (((data.flatMap hex02).drop 40).take 8) 6),
               valid_date := fmtSlash (fourAt (((data.flatMap hex02).drop 48).take 8) 0)
                 (twoAt (((data.flatMap hex02).drop 48).take 8) 4)
                 (twoAt (((data.flatMap hex02).drop 48).take 8) 6) }
      else none) := by
  have hfl : (data.flatMap hex02).length = 2 * data.length := flatMap_hex02_length h256
  have hne : data ≠ [] := by
    intro hcontra
    rw [hcontra] at hlen
    simp at hlen
  have hs1 : (((data.flatMap hex02).drop 40).take 8).length = 8 := by
    simp only [List.length_take, List.length_drop, hfl]
    omega
  have hs2 : (((data.flatMap hex02).drop 48).take 8).length = 8 := by
    simp only [List.length_take, List.length_drop, hfl]
    omega
  simp only [decodeId]
  rw [if_neg (by simp [hne])]
  rw [strptimeYmd_char hs1, strptimeYmd_char hs2]
  by_cases h1 : specValidDate8 (((data.flatMap hex02).drop 40).take 8) = true <;>
    by_cases h2 : specValidDate8 (((data.flatMap hex02).drop 48).take 8) = true
  · rw [if_pos h1, if_pos h2, if_pos ⟨h1, h2⟩]
  · rw [if_pos h1, if_neg (by simpa using h2), if_neg (by simp [h2])]
  · rw [if_neg (by simpa using h1), if_pos h2, if_neg (by simp [h1])]
  · rw [if_neg (by simpa using h1), if_neg (by simpa using h2), if_neg (by simp [h1])]

lemma decodeId_none_of_short {data : List Nat} {sw1 sw2 : Nat} (hlen : data.length < 27)
    (h256 : ∀ b ∈ data, b < 256) :
    decodeId (TResp.ok data sw1 sw2) = none := by
  simp only [decodeId]
  split_ifs with hc
  · rfl
  · have hfl : (data.flatMap hex02).length = 2 * data.length := flatMap_hex02_length h256
    have hs2 : (((data.flatMap hex02).drop 48).take 8).length < 6 := by
      simp only [List.length_take, List.length_drop, hfl]
      omega
    rw [strptimeYmd_none_of_short hs2]
    rcases strptimeYmd (((data.flatMap hex02).drop 40).take 8) with _ | ⟨y1, m1, d1⟩ <;> rfl

/- ### Characterization of the orchestrator -/

/-- Exchanges recorded while selecting the application. -/
def selDelta (T : Nat → TResp) (i0 : Nat) : List (List Nat × TResp) :=
  if okSW (T i0) then [(selApdu0, T i0)]
  else [(selApdu0, T i0), (selApdu1, T (i0 + 1))]

/-- Number of select commands issued. -/
def selCount (T : Nat → TResp) (i0 : Nat) : Nat := if okSW (T i0) then 1 else 2

/-- Label of the profile that won selection (when one did). -/
def selName (T : Nat → TResp) (i0 : Nat) : String :=
  if okSW (T i0) then "主要AID" else "备选AID"

/-- Transmit counter at the first balance read. -/
def postSelIdx (T : Nat → TResp) (i0 : Nat) : Nat := i0 + selCount T i0

/-- Transmit counter at the first ledger read-record command. -/
def ledgerStart (T : Nat → TResp) (i0 : Nat) : Nat := postSelIdx T i0 + 1

/-- Transmit counter at the trailing balance re-read. -/
def trailingIdx (T : Nat → TResp) (i0 : Nat) : Nat :=
  ledgerStart T i0 + (locsDelta T 10 [24, 21, 18, 15, 3, 2] (ledgerStart T i0)).length

/-- The transaction list the orchestrator stores (sorted, newest first). -/
def sortedTxs (T : Nat → TResp) (i0 : Nat) : List TxRecord :=
  (locsTxs T 10 [24, 21, 18, 15, 3, 2] (ledgerStart T i0)).mergeSort
    (fun a b => decide (b.datetime ≤ a.datetime))

lemma read_card_info_sel_fail {T : Nat → TResp} {i0 : Nat} {aid : Option String}
    (h0 : okSW (T i0) = false) (h1 : okSW (T (i0 + 1)) = false) :
    read_card_info T ⟨i0, [], aid⟩ =
      ({ success := false, message := "无法识别卡片类型", balance := none,
         transactions := [], card_info := none, logs := [] },
       ⟨i0 + 2, [(selApdu0, T i0), (selApdu1, T (i0 + 1))], aid⟩) := by
  simp only [read_card_info, select_application_eq, h0, h1]
  simp

lemma read_card_info_sel_ok {T : Nat → TResp} {i0 : Nat}
    (hsel : okSW (T i0) = true ∨ okSW (T (i0 + 1)) = true) :
    read_card_info T ⟨i0, [], none⟩ =
      ({ success := true, message := "读取成功",
         balance :=
           (match decodeBal (T (trailingIdx T i0)) with
            | some b2 => some b2
            | none => decodeBal (T (postSelIdx T i0))),
         transactions := sortedTxs T i0,
         card_info :=
           (match decodeBal (T (trailingIdx T i0)) with
            | some _ => decodeId (T (trailingIdx T i0 + 1))
            | none => none),
         logs := ["卡片识别成功 (" ++ selName T i0 ++ ")",
           (match decodeBal (T (postSelIdx T i0)) with
            | some b => "余额: " ++ fmt2f b ++ " 元"
            | none => "余额读取失败"),
           (if (sortedTxs T i0).isEmpty then "未读取到交易记录"
            else "成功读取 " ++ toString (sortedTxs T i0).length ++ " 条交易记录")] ++
           (match decodeBal (T (trailingIdx T i0)) with
            | none => []
            | some b2 => ("余额: " ++ fmt2f b2 ++ " 元") ::
              (match decodeId (T (trailingIdx T i0 + 1)) with
               | some info => ["卡号: " ++ info.card_number, "开卡日期: " ++ info.start_date,
                               "有效期至: " ++ info.valid_date]
               | none => ["卡号读取失败"])) },
       ⟨(match decodeBal (T (trailingIdx T i0)) with
          | some _ => trailingIdx T i0 + 2
          | none => trailingIdx T i0 + 1),
        selDelta T i0 ++ [(balApdu, T (postSelIdx T i0))] ++
          locsDelta T 10 [24, 21, 18, 15, 3, 2] (ledgerStart T i0) ++
          [(balApdu, T (trailingIdx T i0))] ++
          (match decodeBal (T (trailingIdx T i0)) with
           | some _ => [(idApdu, T (trailingIdx T i0 + 1))]
           | none => []),
        some (selName T i0)⟩) := by
  rcases hsel0 : okSW (T i0) with _ | _
  case false =>
    have hsel1 : okSW (T (i0 + 1)) = true := by
      rcases hsel with h | h
      · rw [hsel0] at h
        exact absurd h (by simp)
      · exact h
    simp only [read_card_info, select_application_eq, hsel0, hsel1, Bool.false_eq_true,
      if_false, if_true, read_balance_eq, read_transactions_eq, read_card_number_eq, pushT,
      selDelta, selCount, selName, postSelIdx, ledgerStart, trailingIdx, sortedTxs]
    simp only [List.nil_append, List.append_assoc, List.cons_append, optStr]
    rcases hb2 : decodeBal (T (i0 + 2 + 1 +
        (locsDelta T 10 [24, 21, 18, 15, 3, 2] (i0 + 2 + 1)).length)) with _ | b2v
    · simp [hb2]
    · rcases hid : decodeId (T (i0 + 2 + 1 +
          (locsDelta T 10 [24, 21, 18, 15, 3, 2] (i0 + 2 + 1)).length + 1)) with _ | info
      · simp [hb2, hid]
      · simp [hb2, hid]
  case true =>
    simp only [read_card_info, select_application_eq, hsel0, if_true,
      read_balance_eq, read_transactions_eq, read_card_number_eq, pushT,
      selDelta, selCount, selName, postSelIdx, ledgerStart, trailingIdx, sortedTxs]
    simp only [List.nil_append, List.append_assoc, List.cons_append, optStr]
    rcases hb2 : decodeBal (T (i0 + 1 + 1 +
        (locsDelta T 10 [24, 21, 18, 15, 3, 2] (i0 + 1 + 1)).length)) with _ | b2v
    · simp [hb2]
    · rcases hid : decodeId (T (i0 + 1 + 1 +
          (locsDelta T 10 [24, 21, 18, 15, 3, 2] (i0 + 1 + 1)).length + 1)) with _ | info
      · simp [hb2, hid]
      · simp [hb2, hid]

lemma read_transactions_some_eq (T : Nat → TResp) (sfis : List Nat) (max : Nat) (s : RState) :
    read_transactions T (some sfis) max s =
      ((locsTxs T max sfis s.idx).mergeSort (fun a b => decide (b.datetime ≤ a.datetime)),
       ⟨s.idx + (locsDelta T max sfis s.idx).length,
        s.trace ++ locsDelta T max sfis s.idx, s.selected_aid⟩) := by
  simp [read_transactions, readLocations_eq]

lemma selDelta_fst {T : Nat → TResp} {i0 : Nat} {e} (h : e ∈ selDelta T i0) :
    e.1 = selApdu0 ∨ e.1 = selApdu1 := by
  simp only [selDelta] at h
  split_ifs at h <;> simp only [List.mem_cons, List.mem_singleton, List.not_mem_nil,
      or_false] at h
  · simp [h]
  · rcases h with h | h <;> simp [h]

lemma idApdu_mem_iff {T : Nat → TResp} {i0 : Nat}
    (hsel : okSW (T i0) = true ∨ okSW (T (i0 + 1)) = true) :
    idApdu ∈ ((read_card_info T ⟨i0, [], none⟩).2.trace.map Prod.fst) ↔
      (decodeBal (T (trailingIdx T i0))).isSome = true := by
  rw [read_card_info_sel_ok hsel]
  rcases hb2 : decodeBal (T (trailingIdx T i0)) with _ | b2
  · simp only [Option.isSome_none, Bool.false_eq_true, iff_false]
    intro hmem
    simp only [List.map_append, List.mem_append, List.mem_map] at hmem
    rcases hmem with ((((⟨e, he, hfst⟩ | ⟨e, he, hfst⟩) | ⟨e, he, hfst⟩) | ⟨e, he, hfst⟩) |
        ⟨e, he, hfst⟩)
    · rcases selDelta_fst he with h | h <;> rw [h] at hfst <;> simp [selApdu0, selApdu1,
        idApdu] at hfst
    · simp only [List.mem_singleton] at he
      rw [he] at hfst
      simp [balApdu, idApdu] at hfst
    · obtain ⟨k, -, n, -, -, hk⟩ := locsDelta_shape he
      rw [hk] at hfst
      exact recApdu_ne_id k n hfst
    · simp only [List.mem_singleton] at he
      rw [he] at hfst
      simp [balApdu, idApdu] at hfst
    · simp at he
  · simp

/- ### Claim theorems -/

/-- C5: `read_balance` returns no balance exactly when the stored-value
response has a status other than `9000` or fewer than 4 data bytes; on a
`9000` status with at least 4 byte-valued data bytes it returns the first
four bytes read as a big-endian unsigned integer divided by 100. -/
theorem spec_C5_balance (T : Nat → TResp) (s : RState) (data : List Nat) (sw1 sw2 : Nat)
    (hT : T s.idx = TResp.ok data sw1 sw2) (hwf : ∀ b ∈ data.take 4, b < 256) :
    ((read_balance T s).1 = none ↔ (¬(sw1 = 0x90 ∧ sw2 = 0x00) ∨ data.length < 4)) ∧
    (sw1 = 0x90 → sw2 = 0x00 → 4 ≤ data.length →
      (read_balance T s).1 = some ((intFromBytesBE (data.take 4) : ℚ) / 100)) := by
  have hall : (data.take 4).all (fun b => decide (b < 256)) = true := by
    simp only [List.all_eq_true, decide_eq_true_eq]
    exact hwf
  rw [read_balance_eq, hT]
  constructor
  · simp only [decodeBal]
    constructor
    · intro hnone
      by_cases h1 : sw1 = 0x90 ∧ sw2 = 0x00
      · by_cases h2 : data.length < 4
        · exact Or.inr h2
        · exfalso
          rw [if_pos h1, if_neg h2, if_pos hall] at hnone
          simp at hnone
      · exact Or.inl h1
    · intro hcase
      rcases hcase with h1 | h2
      · rw [if_neg h1]
      · split_ifs with hsw hlen hallc <;> first | rfl | omega
  · intro h1 h2 hlen
    simp only [decodeBal, h1, h2, and_self, if_true]
    rw [if_neg (by omega), if_pos hall]

/-- Witness for C5: the spec scenario — balance bytes `00 00 27 10` with
status `90 00` decode to `100.00`. -/
theorem spec_C5_balance_witness :
    (read_balance (fun _ => TResp.ok [0x00, 0x00, 0x27, 0x10] 0x90 0x00)
      ⟨0, [], none⟩).1 = some 100 := by
  have h := (spec_C5_balance (fun _ => TResp.ok [0x00, 0x00, 0x27, 0x10] 0x90 0x00)
    ⟨0, [], none⟩ [0x00, 0x00, 0x27, 0x10] 0x90 0x00 rfl (by decide)).2 rfl rfl (by decide)
  rw [h]
  have hv : intFromBytesBE (List.take 4 [0x00, 0x00, 0x27, 0x10]) = 10000 := by decide
  rw [hv]
  norm_num

/-- C6: application selection tries the two profiles in list order; the
first `9000` status wins, is recorded as the active profile, and later
profiles are not tried; a transport fault counts as a non-match and
leaves the active profile unchanged; if both profiles fail, selection
reports failure with the active profile unchanged.  The second conjunct:
the profile recorded by selection is still the active one when the whole
`read_card_info` session ends. -/
theorem spec_C6_selection (T : Nat → TResp) (s : RState) :
    (select_application T s =
      (if okSW (T s.idx) then
        (true, ⟨s.idx + 1, s.trace ++ [(selApdu0, T s.idx)], some "主要AID"⟩)
      else if okSW (T (s.idx + 1)) then
        (true, ⟨s.idx + 2, s.trace ++ [(selApdu0, T s.idx), (selApdu1, T (s.idx + 1))],
          some "备选AID"⟩)
      else
        (false, ⟨s.idx + 2, s.trace ++ [(selApdu0, T s.idx), (selApdu1, T (s.idx + 1))],
          s.selected_aid⟩))) ∧
    (∀ i0 : Nat, (read_card_info T ⟨i0, [], none⟩).2.selected_aid =
      (select_application T ⟨i0, [], none⟩).2.selected_aid) := by
  refine ⟨select_application_eq T s, fun i0 => ?_⟩
  rcases h0 : okSW (T i0) with _ | _
  · rcases h1 : okSW (T (i0 + 1)) with _ | _
    · rw [read_card_info_sel_fail h0 h1, select_application_eq]
      simp [h0, h1]
    · rw [read_card_info_sel_ok (Or.inr h1), select_application_eq]
      rcases hb2 : decodeBal (T (trailingIdx T i0)) with _ | b2 <;>
        rcases hid : decodeId (T (trailingIdx T i0 + 1)) with _ | info <;>
        simp [h0, h1, selName, hb2, hid]
  · rw [read_card_info_sel_ok (Or.inl h0), select_application_eq]
    rcases hb2 : decodeBal (T (trailingIdx T i0)) with _ | b2 <;>
      rcases hid : decodeId (T (trailingIdx T i0 + 1)) with _ | info <;>
      simp [h0, selName, hb2, hid]

/-- C2: on every input whose space-stripped hex decodes, the transaction
parser returns `none` when fewer than 23 bytes decode, and otherwise a
fully populated record whose timestamp is the dash-formatted date/time
exactly when the 14 hex-rendered digits of bytes [16,23) form a valid
calendar date/time, and the fixed sentinel otherwise; no fault escapes. -/
theorem spec_C2_parse_record (str : String) (data : List Nat)
    (h : pyFromHex (str.data.filter (fun c => c != ' ')) = some data) :
    (data.length < 23 → parse_transaction_record str = none) ∧
    (23 ≤ data.length → parse_transaction_record str = some
      { amount := (intFromBytesBE ((data.drop 5).take 4) : ℚ) / 100,
        datetime := specTimestamp data,
        transport_type :=
          match TRANSACTION_TYPES.lookup (data.getD 9 0) with
          | some t => t
          | none => "未知(" ++ String.mk (hex02 (data.getD 9 0)) ++ ")",
        station_gate_info := String.mk (((data.drop 10).take 6).flatMap hex02),
        raw := str }) := by
  constructor
  · intro hlt
    simp only [parse_transaction_record, h]
    rw [if_pos hlt]
  · intro hge
    exact parse_transaction_record_eq h hge

/-- Witness for C2: a concrete 23-byte record decodes to amount `100.00`,
type `地铁` and timestamp `2024-01-15 10:30:00`. -/
theorem spec_C2_parse_record_witness :
    parse_transaction_record
        "00 00 00 00 00 00 00 27 10 09 01 02 03 04 05 06 20 24 01 15 10 30 00" =
      some { amount := 100, datetime := "2024-01-15 10:30:00", transport_type := "地铁",
             station_gate_info := "010203040506",
             raw := "00 00 00 00 00 00 00 27 10 09 01 02 03 04 05 06 20 24 01 15 10 30 00" } := by
  have h := (spec_C2_parse_record
    "00 00 00 00 00 00 00 27 10 09 01 02 03 04 05 06 20 24 01 15 10 30 00"
    [0x00, 0x00, 0x00, 0x00, 0x00, 0x00, 0x00, 0x27, 0x10, 0x09, 0x01, 0x02, 0x03, 0x04,
      0x05, 0x06, 0x20, 0x24, 0x01, 0x15, 0x10, 0x30, 0x00]
    (by decide)).2 (by decide)
  rw [h]
  simp only [Option.some.injEq, TxRecord.mk.injEq, and_true]
  refine ⟨?_, by decide, by decide, by decide⟩
  have hv : intFromBytesBE (List.take 4 (List.drop 5
      [0x00, 0x00, 0x00, 0x00, 0x00, 0x00, 0x00, 0x27, 0x10, 0x09, 0x01, 0x02, 0x03, 0x04,
        0x05, 0x06, 0x20, 0x24, 0x01, 0x15, 0x10, 0x30, 0x00])) = 10000 := by decide
  rw [hv]
  norm_num

/-- C3: during ledger enumeration, slot `n+1` at a location is never
queried once slot `n` there returned a non-success status, empty data or
all-zero data (or a fault); and when slot `n` satisfied the continue
condition, slot `n+1` is queried whenever it is within range — even if
slot `n`'s record failed to parse. -/
theorem spec_C3_slot_stop (T : Nat → TResp) (i0 : Nat) (aid : Option String)
    (sfis : List Nat) (max : Nat) (hnd : sfis.Nodup) (sfi n : Nat) (r : TResp) :
    ((recApdu sfi n, r) ∈ (read_transactions T (some sfis) max ⟨i0, [], aid⟩).2.trace →
      contOkB r = false →
      ∀ r2, (recApdu sfi (n + 1), r2) ∉
        (read_transactions T (some sfis) max ⟨i0, [], aid⟩).2.trace) ∧
    ((recApdu sfi n, r) ∈ (read_transactions T (some sfis) max ⟨i0, [], aid⟩).2.trace →
      contOkB r = true → n + 1 ≤ max →
      ∃ r2, (recApdu sfi (n + 1), r2) ∈
        (read_transactions T (some sfis) max ⟨i0, [], aid⟩).2.trace) := by
  rw [read_transactions_some_eq]
  simp only [List.nil_append]
  exact ⟨fun hmem hbad r2 => locsDelta_stop hnd hmem hbad,
    fun hmem hok hle => locsDelta_cont hnd hmem hok hle⟩

/-- Witness for C3: with every slot answering all-zero data, slot 2 of
location 24 is never read; with every slot answering parseable-status but
unparseable (too short) data, slot 2 is still read. -/
theorem spec_C3_slot_stop_witness :
    ((recApdu 24 2, TResp.ok [0] 0x90 0x00) ∉
      (read_transactions (fun _ => TResp.ok [0] 0x90 0x00) (some [24, 21, 18, 15, 3, 2]) 10
        ⟨0, [], none⟩).2.trace) ∧
    (∃ r2, (recApdu 24 2, r2) ∈
      (read_transactions (fun _ => TResp.ok [1] 0x90 0x00) (some [24, 21, 18, 15, 3, 2]) 10
        ⟨0, [], none⟩).2.trace) := by
  constructor
  · exact (spec_C3_slot_stop (fun _ => TResp.ok [0] 0x90 0x00) 0 none [24, 21, 18, 15, 3, 2]
      10 (by decide) 24 1 (TResp.ok [0] 0x90 0x00)).1 (by decide) (by decide) _
  · exact (spec_C3_slot_stop (fun _ => TResp.ok [1] 0x90 0x00) 0 none [24, 21, 18, 15, 3, 2]
      10 (by decide) 24 1 (TResp.ok [1] 0x90 0x00)).2 (by decide) (by decide) (by decide)

/-- C4: once any candidate location has produced a decoded record, no
read-record command is issued to a later candidate; a location whose read
slots decoded nothing does not stop the outer loop — the next candidate's
first slot is queried. -/
theorem spec_C4_location_stop (T : Nat → TResp) (i0 : Nat) (aid : Option String)
    (max : Nat) (sfis pre post : List Nat) (sfi : Nat) (hnd : sfis.Nodup)
    (hsp : sfis = pre ++ sfi :: post) :
    ((∃ n r, (recApdu sfi n, r) ∈
        (read_transactions T (some sfis) max ⟨i0, [], aid⟩).2.trace ∧ decodesB r = true) →
      ∀ k ∈ post, ∀ n2 r2, (recApdu k n2, r2) ∉
        (read_transactions T (some sfis) max ⟨i0, [], aid⟩).2.trace) ∧
    (∀ sfi2 post2, post = sfi2 :: post2 → 1 ≤ max →
      (∃ r, (recApdu sfi 1, r) ∈
        (read_transactions T (some sfis) max ⟨i0, [], aid⟩).2.trace) →
      (∀ n r, (recApdu sfi n, r) ∈
        (read_transactions T (some sfis) max ⟨i0, [], aid⟩).2.trace → decodesB r = false) →
      ∃ r2, (recApdu sfi2 1, r2) ∈
        (read_transactions T (some sfis) max ⟨i0, [], aid⟩).2.trace) := by
  rw [read_transactions_some_eq]
  simp only [List.nil_append]
  constructor
  · intro hdec k hk n2 r2 hx
    exact locsDelta_loc_stop hnd hsp hdec k hk n2 r2 hx
  · intro sfi2 post2 hpost hmax hone hall
    exact locsDelta_loc_cont hnd (by rw [hsp, hpost]) hmax hone hall

/-- A 23-byte ledger record used by concrete test transports. -/
def dRec : List Nat :=
  [0x00, 0x00, 0x00, 0x00, 0x00, 0x00, 0x00, 0x27, 0x10, 0x09, 0x01, 0x02, 0x03, 0x04,
   0x05, 0x06, 0x20, 0x24, 0x01, 0x15, 0x10, 0x30, 0x00]

/-- Transport: first exchange returns a decodable record, then failures. -/
def T4hit : Nat → TResp := fun i =>
  if i = 0 then TResp.ok dRec 0x90 0x00 else TResp.ok [] 0x6A 0x82

/-- Transport: every exchange fails with status `6A82`. -/
def Tmiss : Nat → TResp := fun _ => TResp.ok [] 0x6A 0x82

/-- Witness for C4: when location 24 decodes a record, location 21 is
never queried; when location 24 decodes nothing, location 21 is. -/
theorem spec_C4_location_stop_witness :
    ((recApdu 21 1, TResp.fault) ∉
      (read_transactions T4hit (some [24, 21, 18, 15, 3, 2]) 1 ⟨0, [], none⟩).2.trace) ∧
    (∃ r2, (recApdu 21 1, r2) ∈
      (read_transactions Tmiss (some [24, 21, 18, 15, 3, 2]) 1 ⟨0, [], none⟩).2.trace) := by
  constructor
  · exact (spec_C4_location_stop T4hit 0 none 1 [24, 21, 18, 15, 3, 2] [] [21, 18, 15, 3, 2]
      24 (by decide) rfl).1 ⟨1, TResp.ok dRec 0x90 0x00, by decide, by decide⟩ 21
      (by decide) 1 TResp.fault
  · refine (spec_C4_location_stop Tmiss 0 none 1 [24, 21, 18, 15, 3, 2] [] [21, 18, 15, 3, 2]
      24 (by decide) rfl).2 21 [18, 15, 3, 2] rfl (by decide)
      ⟨TResp.ok [] 0x6A 0x82, by decide⟩ ?_
    intro n r hmem
    have htr : (read_transactions Tmiss (some [24, 21, 18, 15, 3, 2]) 1 ⟨0, [], none⟩).2.trace =
        [(recApdu 24 1, TResp.ok [] 0x6A 0x82), (recApdu 21 1, TResp.ok [] 0x6A 0x82),
         (recApdu 18 1, TResp.ok [] 0x6A 0x82), (recApdu 15 1, TResp.ok [] 0x6A 0x82),
         (recApdu 3 1, TResp.ok [] 0x6A 0x82), (recApdu 2 1, TResp.ok [] 0x6A 0x82)] := by
      decide
    rw [htr] at hmem
    simp only [List.mem_cons, List.not_mem_nil, or_false] at hmem
    rcases hmem with h | h | h | h | h | h <;>
      (rw [show r = TResp.ok [] 0x6A 0x82 from congrArg Prod.snd h]; decide)

/-- 27-byte identity data whose hex characters [40,48) are `20230115` and
[48,54) are `201111`; the expiry slice is 6 characters, not 8. -/
def d27 : List Nat :=
  List.replicate 20 0x00 ++ [0x20, 0x23, 0x01, 0x15, 0x20, 0x11, 0x11]

/-- 27-byte identity data with slices `19991231` and `200229`. -/
def d27b : List Nat :=
  List.replicate 20 0x01 ++ [0x19, 0x99, 0x12, 0x31, 0x20, 0x02, 0x29]

/-- 28-byte identity data realizing the spec scenario: issue `20230115`,
expiry `20330115`. -/
def d28 : List Nat :=
  List.replicate 20 0x00 ++ [0x20, 0x23, 0x01, 0x15, 0x20, 0x33, 0x01, 0x15]

/-- C7 (amended): the identity read yields `None` whenever the status is
not `9000` or the data is empty; for responses of at least 28 bytes it
yields a record exactly when both 8-character date slices are valid
`YYYYMMDD` calendar dates, the record carrying hex characters [20,40)
verbatim and both dates reformatted `YYYY/MM/DD`.  (For successful
responses of 21–27 bytes the Python date parse can accept a truncated
slice, so the unrestricted claim fails; see the counterexample.) -/
theorem spec_C7_identity (T : Nat → TResp) (s : RState) (data : List Nat) (sw1 sw2 : Nat)
    (hT : T s.idx = TResp.ok data sw1 sw2) (hwf : ∀ b ∈ data, b < 256) :
    (¬(sw1 = 0x90 ∧ sw2 = 0x00) ∨ data = [] → (read_card_number T s).1 = none) ∧
    (sw1 = 0x90 → sw2 = 0x00 → 28 ≤ data.length →
      (read_card_number T s).1 =
        (if specValidDate8 (((data.flatMap hex02).drop 40).take 8) ∧
            specValidDate8 (((data.flatMap hex02).drop 48).take 8) then
          some { card_number := String.mk (((data.flatMap hex02).drop 20).take 20),
                 start_date := fmtSlash (fourAt (((data.flatMap hex02).drop 40).take 8) 0)
                   (twoAt (((data.flatMap hex02).drop 40).take 8) 4)
                   (twoAt (((data.flatMap hex02).drop 40).take 8) 6),
                 valid_date := fmtSlash (fourAt (((data.flatMap hex02).drop 48).take 8) 0)
                   (twoAt (((data.flatMap hex02).drop 48).take 8) 4)
                   (twoAt (((data.flatMap hex02).drop 48).take 8) 6) }
        else none)) := by
  rw [read_card_number_eq, hT]
  constructor
  · intro hfail
    simp only [decodeId]
    rw [if_pos hfail]
  · intro h1 h2 hlen
    subst h1
    subst h2
    exact decodeId_eq_of_len28 hlen hwf

/-- Witness for C7: the spec scenario — a 28-byte response with hex date
slices `20230115` and `20330115` yields `2023/01/15` and `2033/01/15`. -/
theorem spec_C7_identity_witness :
    (read_card_number (fun _ => TResp.ok d28 0x90 0x00) ⟨0, [], none⟩).1 =
      some { card_number := "00000000000000000000", start_date := "2023/01/15",
             valid_date := "2033/01/15" } := by
  have h := (spec_C7_identity (fun _ => TResp.ok d28 0x90 0x00) ⟨0, [], none⟩ d28 0x90 0x00
    rfl (by decide)).2 rfl rfl (by decide)
  rw [h]
  decide

/-- Counterexample to C7 as stated: a successful, non-empty 27-byte
response whose [48,56) slice is `201111` — not a valid eight-character
`YYYYMMDD` date — still yields an identity record (Python parses the
6-character slice as 2011-01-01), instead of the `None` the claim
demands. -/
theorem spec_C7_identity_counterexample :
    okSW (TResp.ok d27 0x90 0x00) = true ∧ d27 ≠ [] ∧
    specValidDate8 (((d27.flatMap hex02).drop 48).take 8) = false ∧
    (read_card_number (fun _ => TResp.ok d27 0x90 0x00) ⟨0, [], none⟩).1 =
      some { card_number := "00000000000000000000", start_date := "2023/01/15",
             valid_date := "2011/01/01" } := by
  refine ⟨by decide, by decide, by decide, ?_⟩
  rw [read_card_number_eq]
  decide

/-- C9 (amended): every identity response with fewer than 27 byte-valued
data bytes yields `None`: the expiry slice has at most 4 hex characters,
its date parse fails, and the handler returns `None`.  (At 27 bytes the
6-character slice can parse, so the original 28-byte bound is too
strong.) -/
theorem spec_C9_short_identity (T : Nat → TResp) (s : RState) (data : List Nat)
    (sw1 sw2 : Nat) (hT : T s.idx = TResp.ok data sw1 sw2) (hsw1 : sw1 = 0x90)
    (hsw2 : sw2 = 0x00) (hne : data ≠ []) (hlen : data.length < 27)
    (hwf : ∀ b ∈ data, b < 256) :
    (read_card_number T s).1 = none := by
  rw [read_card_number_eq, hT]
  exact decodeId_none_of_short hlen hwf

/-- Witness for C9: a successful one-byte response yields no record. -/
theorem spec_C9_short_identity_witness :
    (read_card_number (fun _ => TResp.ok [0x01] 0x90 0x00) ⟨0, [], none⟩).1 = none :=
  spec_C9_short_identity (fun _ => TResp.ok [0x01] 0x90 0x00) ⟨0, [], none⟩ [0x01]
    0x90 0x00 rfl rfl rfl (by decide) (by decide) (by decide)

/-- Counterexample to C9 as stated: a successful, non-empty response of 27
bytes — fewer than 28 — still yields an identity record, because the
6-character expiry slice `200229` parses as 2002-02-09. -/
theorem spec_C9_short_identity_counterexample :
    okSW (TResp.ok d27b 0x90 0x00) = true ∧ d27b ≠ [] ∧ d27b.length < 28 ∧
    (read_card_number (fun _ => TResp.ok d27b 0x90 0x00) ⟨0, [], none⟩).1 =
      some { card_number := "01010101010101010101", start_date := "1999/12/31",
             valid_date := "2002/02/09" } := by
  refine ⟨by decide, by decide, by decide, ?_⟩
  rw [read_card_number_eq]
  decide

/-- C1 (amended): if application selection fails, the orchestrator
returns `success=false` with no balance, ledger or identity command ever
issued (the trace holds select commands only); if selection succeeds, the
balance and ledger stages are attempted and each failure is recorded as a
log line with a `None`-valued field, but the identity read is attempted
exactly when the trailing stored-value re-query succeeds — not
unconditionally as the original claim states. -/
theorem spec_C1_orchestrator (T : Nat → TResp) (i0 : Nat) :
    (okSW (T i0) = false → okSW (T (i0 + 1)) = false →
      (read_card_info T ⟨i0, [], none⟩).1.success = false ∧
      (read_card_info T ⟨i0, [], none⟩).1.message = "无法识别卡片类型" ∧
      (read_card_info T ⟨i0, [], none⟩).1.balance = none ∧
      (read_card_info T ⟨i0, [], none⟩).1.transactions = [] ∧
      (read_card_info T ⟨i0, [], none⟩).1.card_info = none ∧
      (∀ e ∈ (read_card_info T ⟨i0, [], none⟩).2.trace, e.1 = selApdu0 ∨ e.1 = selApdu1)) ∧
    (okSW (T i0) = true ∨ okSW (T (i0 + 1)) = true →
      (read_card_info T ⟨i0, [], none⟩).1.success = true ∧
      balApdu ∈ (read_card_info T ⟨i0, [], none⟩).2.trace.map Prod.fst ∧
      (∃ r, (recApdu 24 1, r) ∈ (read_card_info T ⟨i0, [], none⟩).2.trace) ∧
      ((read_card_info T ⟨i0, [], none⟩).1.balance = none →
        "余额读取失败" ∈ (read_card_info T ⟨i0, [], none⟩).1.logs) ∧
      ((read_card_info T ⟨i0, [], none⟩).1.transactions = [] →
        "未读取到交易记录" ∈ (read_card_info T ⟨i0, [], none⟩).1.logs) ∧
      (idApdu ∈ (read_card_info T ⟨i0, [], none⟩).2.trace.map Prod.fst ↔
        (decodeBal (T (trailingIdx T i0))).isSome = true)) := by
  constructor
  · intro h0 h1
    rw [read_card_info_sel_fail h0 h1]
    refine ⟨rfl, rfl, rfl, rfl, rfl, ?_⟩
    intro e he
    simp only [List.mem_cons, List.not_mem_nil, or_false] at he
    rcases he with he | he <;> simp [he]
  · intro hsel
    refine ⟨?_, ?_, ?_, ?_, ?_, idApdu_mem_iff hsel⟩
    · rw [read_card_info_sel_ok hsel]
    · rw [read_card_info_sel_ok hsel]
      simp only [List.map_append, List.mem_append, List.map_cons, List.map_nil,
        List.mem_singleton]
      exact Or.inl (Or.inl (Or.inl (Or.inr (by simp))))
    · refine ⟨T (ledgerStart T i0), ?_⟩
      rw [read_card_info_sel_ok hsel]
      simp only [List.mem_append]
      exact Or.inl (Or.inl (Or.inr (locsDelta_first_slot [21, 18, 15, 3, 2]
        (ledgerStart T i0) (by omega))))
    · rw [read_card_info_sel_ok hsel]
      rcases hb2 : decodeBal (T (trailingIdx T i0)) with _ | b2
      · intro hb1
        simp only at hb1
        rw [hb1]
        simp
      · intro hb1
        simp at hb1
    · rw [read_card_info_sel_ok hsel]
      intro htx
      simp only at htx
      rw [htx]
      simp

/-- Transport: the first select succeeds, every later command fails. -/
def Tselonly : Nat → TResp := fun i =>
  if i = 0 then TResp.ok [] 0x90 0x00 else TResp.ok [] 0x6A 0x82

/-- Witness for C1: with both selects rejected the orchestrator fails;
with selection succeeding the balance command is issued. -/
theorem spec_C1_orchestrator_witness :
    (read_card_info Tmiss ⟨0, [], none⟩).1.success = false ∧
    balApdu ∈ (read_card_info Tselonly ⟨0, [], none⟩).2.trace.map Prod.fst :=
  ⟨((spec_C1_orchestrator Tmiss 0).1 (by decide) (by decide)).1,
   ((spec_C1_orchestrator Tselonly 0).2 (Or.inl (by decide))).2.1⟩

/-- Counterexample to C1 as stated: when selection succeeds but every
later command fails, the run succeeds yet the identity-read command is
never issued — the identity stage is not attempted unconditionally. -/
theorem spec_C1_orchestrator_counterexample :
    (read_card_info Tselonly ⟨0, [], none⟩).1.success = true ∧
    idApdu ∉ (read_card_info Tselonly ⟨0, [], none⟩).2.trace.map Prod.fst := by
  decide

/-- C8: for every transport behavior — any responses, any raised faults —
the orchestrator returns a result object: success with its message, or
failure with `success=false`, the failure message and empty optional
fields; a failed balance or ledger stage is expressed as a `None`/empty
field plus an explanatory log line, and a missing identity record is
either logged or belongs to an identity stage that was never attempted. -/
theorem spec_C8_total (T : Nat → TResp) (i0 : Nat) (res : CardResult) (tr : RState)
    (h : read_card_info T ⟨i0, [], none⟩ = (res, tr)) :
    ((res.success = true ∧ res.message = "读取成功") ∨
     (res.success = false ∧ res.message = "无法识别卡片类型" ∧ res.balance = none ∧
      res.transactions = [] ∧ res.card_info = none ∧ res.logs = [])) ∧
    (res.success = true → res.balance = none → "余额读取失败" ∈ res.logs) ∧
    (res.success = true → res.transactions = [] → "未读取到交易记录" ∈ res.logs) ∧
    (res.success = true → res.card_info = none →
      "卡号读取失败" ∈ res.logs ∨ idApdu ∉ tr.trace.map Prod.fst) := by
  rcases h0 : okSW (T i0) with _ | _
  case false =>
    rcases h1 : okSW (T (i0 + 1)) with _ | _
    case false =>
      rw [read_card_info_sel_fail h0 h1] at h
      injection h with hres htr
      subst hres
      subst htr
      refine ⟨Or.inr ⟨rfl, rfl, rfl, rfl, rfl, rfl⟩, ?_, ?_, ?_⟩ <;> intro hs <;> simp at hs
    case true =>
      have hsel : okSW (T i0) = true ∨ okSW (T (i0 + 1)) = true := Or.inr h1
      have hiff := idApdu_mem_iff hsel
      rw [read_card_info_sel_ok hsel] at h hiff
      injection h with hres htr
      subst hres
      subst htr
      refine ⟨Or.inl ⟨rfl, rfl⟩, ?_, ?_, ?_⟩
      · intro _ hbal
        rcases hb2 : decodeBal (T (trailingIdx T i0)) with _ | b2
        · rw [hb2] at hbal
          simp only at hbal
          rw [hbal]
          simp
        · rw [hb2] at hbal
          simp at hbal
      · intro _ htx
        simp only at htx
        rw [htx]
        simp
      · intro _ hci
        rcases hb2 : decodeBal (T (trailingIdx T i0)) with _ | b2
        · right
          rw [hb2] at hiff
          intro hmem
          have := hiff.1 hmem
          simp at this
        · left
          rw [hb2] at hci
          simp only at hci
          simp [hci]
  case true =>
    have hsel : okSW (T i0) = true ∨ okSW (T (i0 + 1)) = true := Or.inl h0
    have hiff := idApdu_mem_iff hsel
    rw [read_card_info_sel_ok hsel] at h hiff
    injection h with hres htr
    subst hres
    subst htr
    refine ⟨Or.inl ⟨rfl, rfl⟩, ?_, ?_, ?_⟩
    · intro _ hbal
      rcases hb2 : decodeBal (T (trailingIdx T i0)) with _ | b2
      · rw [hb2] at hbal
        simp only at hbal
        rw [hbal]
        simp
      · rw [hb2] at hbal
        simp at hbal
    · intro _ htx
      simp only at htx
      rw [htx]
      simp
    · intro _ hci
      rcases hb2 : decodeBal (T (trailingIdx T i0)) with _ | b2
      · right
        rw [hb2] at hiff
        intro hmem
        have := hiff.1 hmem
        simp at this
      · left
        rw [hb2] at hci
        simp only at hci
        simp [hci]

/-- Witness for C8: a transport that always faults still produces a
result, with the failure message and no partial fields. -/
theorem spec_C8_total_witness :
    (read_card_info (fun _ => TResp.fault) ⟨0, [], none⟩).1.success = false ∧
    (read_card_info (fun _ => TResp.fault) ⟨0, [], none⟩).1.message = "无法识别卡片类型" := by
  have h := (spec_C8_total (fun _ => TResp.fault) 0
    (read_card_info (fun _ => TResp.fault) ⟨0, [], none⟩).1
    (read_card_info (fun _ => TResp.fault) ⟨0, [], none⟩).2 rfl).1
  rcases h with ⟨hs, -⟩ | ⟨hs, hm, -⟩
  · exfalso
    rw [show (read_card_info (fun _ => TResp.fault) ⟨0, [], none⟩).1.success = false from
      by decide] at hs
    simp at hs
  · exact ⟨hs, hm⟩

lemma filter_bal_nil (l : List (List Nat × TResp))
    (h : ∀ e ∈ l, e.1 ≠ balApdu) :
    l.filter (fun e => decide (e.1 = balApdu)) = [] := by
  induction l with
  | nil => rfl
  | cons a t ih =>
    rw [List.filter_cons, if_neg (by simpa using h a (List.mem_cons_self a t))]
    exact ih fun e he => h e (List.mem_cons_of_mem a he)

/-- C10: after the main stage the orchestrator issues the balance command a
second time — the trace holds exactly two balance queries, in order; if the
re-query fails to decode, the earlier balance result is kept; and the
identity read happens exactly when the re-query decodes. -/
theorem spec_C10_requery (T : Nat → TResp) (i0 : Nat) (res : CardResult) (tr : RState)
    (h : read_card_info T ⟨i0, [], none⟩ = (res, tr))
    (hsel : okSW (T i0) = true ∨ okSW (T (i0 + 1)) = true) :
    ∃ r1 r2,
      tr.trace.filter (fun e => decide (e.1 = balApdu)) = [(balApdu, r1), (balApdu, r2)] ∧
      (decodeBal r2 = none → res.balance = decodeBal r1) ∧
      (idApdu ∈ tr.trace.map Prod.fst ↔ (decodeBal r2).isSome = true) := by
  have hiff := idApdu_mem_iff hsel
  rw [read_card_info_sel_ok hsel] at h hiff
  injection h with hres htr
  subst hres
  subst htr
  refine ⟨T (postSelIdx T i0), T (trailingIdx T i0), ?_, ?_, hiff⟩
  · simp only [List.filter_append]
    rw [filter_bal_nil (selDelta T i0)
        (fun e he => by rcases selDelta_fst he with h | h <;> rw [h] <;> decide)]
    rw [filter_bal_nil (locsDelta T 10 [24, 21, 18, 15, 3, 2] (ledgerStart T i0))
        (fun e he => by
          obtain ⟨k, -, n, -, -, hk⟩ := locsDelta_shape he
          rw [hk]
          exact recApdu_ne_bal k n)]
    rcases hb2 : decodeBal (T (trailingIdx T i0)) with _ | b2 <;>
      simp [List.filter_cons, List.filter_nil, (by decide : idApdu ≠ balApdu)]
  · intro hr2
    rw [hr2]

/-- Witness for C10: with selection succeeding and every later command
rejected, the trace carries exactly two balance queries and the kept
balance is the first query's decode. -/
theorem spec_C10_requery_witness :
    ∃ r1 r2,
      (read_card_info Tselonly ⟨0, [], none⟩).2.trace.filter
          (fun e => decide (e.1 = balApdu)) = [(balApdu, r1), (balApdu, r2)] ∧
      (decodeBal r2 = none →
        (read_card_info Tselonly ⟨0, [], none⟩).1.balance = decodeBal r1) ∧
      (idApdu ∈ (read_card_info Tselonly ⟨0, [], none⟩).2.trace.map Prod.fst ↔
        (decodeBal r2).isSome = true) :=
  spec_C10_requery Tselonly 0 _ _ rfl (Or.inl (by decide))
